import Mathlib

/-!
Shallow embedding of the GuffGaff signaling / matchmaking server.

JavaScript `Map`s are modelled as association lists with `Map` semantics:
`aset` replaces a binding in place or appends a fresh one, `adel` removes
the binding, `alookup` returns the first binding.  Arrays used as queues
are plain lists; `indexOf` + `splice` removal is `qremove`.  Timestamp
fields (`connectedAt`, `lastActive`, `joinedAt`, `createdAt`, ...) carry no
information used by any claim and are omitted from the records, as are the
log-only metadata fields of rooms (message buffers, ICE-candidate buffers).

The repository contains several near-duplicate implementations; each is
embedded in its own namespace:
* `CMjs`    — `src/connectionManager.js` (standalone class with room table)
* `IndexV1` — first `ConnectionManager` + handlers in `src/index.js`
* `IndexV2` — second `ConnectionManager` + handlers in `src/index.js`
  (the variant with `validatePeers` and the validating signaling handlers)
* `P2`      — the `ConnectionManager` of `src/unnamed/part_002`
  (the variant with connection timeouts and room states)
-/

/-- JS `Map.get`: the first binding of the key, if any. -/
def alookup {α : Type} : List (String × α) → String → Option α
  | [], _ => none
  | (k, v) :: rest, key => if k = key then some v else alookup rest key

/-- JS `Map.set`: replace the binding in place, or append a fresh one. -/
def aset {α : Type} : List (String × α) → String → α → List (String × α)
  | [], key, val => [(key, val)]
  | (k, v) :: rest, key, val =>
    if k = key then (key, val) :: rest else (k, v) :: aset rest key val

/-- JS `Map.delete`: drop the first binding of the key. -/
def adel {α : Type} : List (String × α) → String → List (String × α)
  | [], _ => []
  | (k, v) :: rest, key => if k = key then rest else (k, v) :: adel rest key

/-- The keys of an association list, in order. -/
def mapKeys {α : Type} (m : List (String × α)) : List String := m.map Prod.fst

/-- A JS `Map` never holds two bindings for one key; reachable states and
well-formed states satisfy this for every embedded map. -/
def KeysNodup {α : Type} (m : List (String × α)) : Prop := (mapKeys m).Nodup

instance {α : Type} [DecidableEq α] (m : List (String × α)) : Decidable (KeysNodup m) :=
  inferInstanceAs (Decidable (mapKeys m).Nodup)

/-- The partnership map is symmetric: if A maps to B then B maps to A. -/
def SymmMap (m : List (String × String)) : Prop :=
  ∀ a b : String, alookup m a = some b → alookup m b = some a

/-- No peer is recorded as its own partner. -/
def NoSelfMap (m : List (String × String)) : Prop :=
  ∀ a : String, alookup m a ≠ some a

/-- `Array.prototype.splice` at `indexOf`: remove the first occurrence. -/
def qremove : List String → String → List String
  | [], _ => []
  | x :: rest, y => if x = y then rest else x :: qremove rest y

/-- Truthiness of a nullable string in JS: `null` and `""` are falsy. -/
def strTruthy : Option String → Bool
  | none => false
  | some s => if s = "" then false else true

/-- Messages emitted to sockets by the handlers (timestamps omitted). -/
inductive Emit where
  | offerMsg (target sender : String) (roomId : Option String) (payload : String)
  | answerMsg (target sender : String) (roomId : Option String) (payload : String)
  | iceMsg (target sender : String) (roomId : Option String) (payload : String)
  | errorMsg (target message : String)
deriving DecidableEq, Repr

namespace CMjs

/-- Peer record of `src/connectionManager.js` (`joinedAt` omitted). -/
structure User where
  id : String
  inCall : Bool
  room : Option String
deriving DecidableEq, Repr

/-- Room record of `src/connectionManager.js` (`createdAt` omitted). -/
structure Room where
  id : String
  participants : List String
deriving DecidableEq, Repr

/-- The mutable fields of the `ConnectionManager` class. -/
structure State where
  users : List (String × User)
  partnerships : List (String × String)
  waitingQueue : List String
  roomCounter : Nat
  rooms : List (String × Room)
deriving DecidableEq, Repr

/-- The constructor state: all maps empty, counter 0. -/
def init : State := ⟨[], [], [], 0, []⟩

/-- `addUser`: unconditionally stores a fresh default record (it neither
checks for an existing record nor returns a value). -/
def addUser (s : State) (socketId : String) : State :=
  { s with users := aset s.users socketId ⟨socketId, false, none⟩ }

/-- `addToWaitingQueue`: appends unless already present. -/
def addToWaitingQueue (s : State) (socketId : String) : Bool × State :=
  if socketId ∈ s.waitingQueue then (false, s)
  else (true, { s with waitingQueue := s.waitingQueue ++ [socketId] })

/-- `removeFromWaitingQueue`: splice out the first occurrence. -/
def removeFromWaitingQueue (s : State) (socketId : String) : Bool × State :=
  if socketId ∈ s.waitingQueue then
    (true, { s with waitingQueue := qremove s.waitingQueue socketId })
  else (false, s)

/-- `createPartnership`: allocates a room id, stores the room, stores both
partnership directions, and marks both user records in-call when both are
registered.  No precondition is checked and the room id is always
returned. -/
def createPartnership (s : State) (socket1Id socket2Id : String) : State × String :=
  let roomId := "room_" ++ toString (s.roomCounter + 1)
  let rooms := aset s.rooms roomId ⟨roomId, [socket1Id, socket2Id]⟩
  let partnerships := aset (aset s.partnerships socket1Id socket2Id) socket2Id socket1Id
  let users :=
    match alookup s.users socket1Id, alookup s.users socket2Id with
    | some u1, some u2 =>
      aset (aset s.users socket1Id { u1 with inCall := true, room := some roomId })
        socket2Id { u2 with inCall := true, room := some roomId }
    | _, _ => s.users
  ({ s with roomCounter := s.roomCounter + 1, rooms := rooms,
            partnerships := partnerships, users := users }, roomId)

/-- Resetting one user record to `inCall = false, room = null` (no-op on an
unknown id), as done inside `breakPartnership`. -/
def resetUser (us : List (String × User)) (pid : String) : List (String × User) :=
  match alookup us pid with
  | some u => aset us pid { u with inCall := false, room := none }
  | none => us

/-- `breakPartnership`: if the peer has a (truthy) partner, delete the
peer's room, reset both user records, and delete both partnership
directions; otherwise a no-op returning `null`. -/
def breakPartnership (s : State) (socketId : String) : State × Option String :=
  match alookup s.partnerships socketId with
  | some partnerId =>
    if partnerId = "" then (s, none)
    else
      let rooms :=
        match alookup s.users socketId with
        | some u =>
          match u.room with
          | some r => if r = "" then s.rooms else adel s.rooms r
          | none => s.rooms
        | none => s.rooms
      let users := resetUser (resetUser s.users socketId) partnerId
      ({ s with rooms := rooms, users := users,
                partnerships := adel (adel s.partnerships socketId) partnerId },
       some partnerId)
  | none => (s, none)

/-- `removeUser`: break a partnership when the record has a truthy room,
then delete the record and leave the waiting queue. -/
def removeUser (s : State) (socketId : String) : State :=
  let s₁ :=
    match alookup s.users socketId with
    | some u => if strTruthy u.room then (breakPartnership s socketId).1 else s
    | none => s
  { s₁ with users := adel s₁.users socketId,
            waitingQueue := qremove s₁.waitingQueue socketId }

/-- Result record of `getStats`. -/
structure Stats where
  totalUsers : Nat
  waitingUsers : Nat
  activePartnerships : Nat
deriving DecidableEq, Repr

/-- `getStats` (`partnerships.size / 2` — exact only when the size is even). -/
def getStats (s : State) : Stats :=
  ⟨s.users.length, s.waitingQueue.length, s.partnerships.length / 2⟩

end CMjs

namespace IndexV1

/-- Peer record of the first `ConnectionManager` in `src/index.js`
(timestamps omitted). -/
structure User where
  inCall : Bool
  room : Option String
deriving DecidableEq, Repr

/-- State of the first `ConnectionManager` in `src/index.js` (it keeps no
room table). -/
structure State where
  users : List (String × User)
  partnerships : List (String × String)
  waitingQueue : List String
  roomCounter : Nat
deriving DecidableEq, Repr

/-- The constructor state. -/
def init : State := ⟨[], [], [], 0⟩

/-- `addUser`: unconditionally stores a fresh default record. -/
def addUser (s : State) (socketId : String) : State :=
  { s with users := aset s.users socketId ⟨false, none⟩ }

/-- `createPartnership` of the first `src/index.js` variant: partnership
map set symmetrically, both user records marked in-call when both exist;
no room table, no precondition. -/
def createPartnership (s : State) (socket1Id socket2Id : String) : State × String :=
  let roomId := "room_" ++ toString (s.roomCounter + 1)
  let partnerships := aset (aset s.partnerships socket1Id socket2Id) socket2Id socket1Id
  let users :=
    match alookup s.users socket1Id, alookup s.users socket2Id with
    | some u1, some u2 =>
      aset (aset s.users socket1Id { u1 with inCall := true, room := some roomId })
        socket2Id { u2 with inCall := true, room := some roomId }
    | _, _ => s.users
  ({ s with roomCounter := s.roomCounter + 1,
            partnerships := partnerships, users := users }, roomId)

/-- The eligibility test of `getNextWaitingUser`:
`users.has(nextId) && !partnerships.has(nextId)`. -/
def eligible (s : State) (id : String) : Bool :=
  (alookup s.users id).isSome && (alookup s.partnerships id).isNone

/-- The `while` loop of `getNextWaitingUser`: shift ids off the head,
return the first eligible one together with the remaining queue. -/
def gnwuAux (s : State) : List String → Option String × List String
  | [] => (none, [])
  | nextId :: rest =>
    if eligible s nextId then (some nextId, rest) else gnwuAux s rest

/-- `getNextWaitingUser` of `src/index.js` (lines 132-140). -/
def getNextWaitingUser (s : State) : Option String × State :=
  let r := gnwuAux s s.waitingQueue
  (r.1, { s with waitingQueue := r.2 })

/-- The `socket.on("offer")` handler at `src/index.js` lines 219-225: it
forwards the payload to `data.peerId` unconditionally — no validation, no
error, no state change. -/
def handleOffer (s : State) (senderId dataPeerId payload : String) : State × List Emit :=
  (s, [Emit.offerMsg dataPeerId senderId none payload])

/-- The `socket.on("answer")` handler at `src/index.js` lines 227-233. -/
def handleAnswer (s : State) (senderId dataPeerId payload : String) : State × List Emit :=
  (s, [Emit.answerMsg dataPeerId senderId none payload])

/-- The `socket.on("ice-candidate")` handler at `src/index.js`
lines 235-241. -/
def handleIceCandidate (s : State) (senderId dataPeerId payload : String) : State × List Emit :=
  (s, [Emit.iceMsg dataPeerId senderId none payload])

end IndexV1

namespace IndexV2

/-- Peer record of the second `ConnectionManager` in `src/index.js`
(timestamps omitted). -/
structure User where
  inCall : Bool
  room : Option String
deriving DecidableEq, Repr

/-- Room record of the second `ConnectionManager` in `src/index.js`
(`createdAt` omitted). -/
structure Room where
  participants : List String
deriving DecidableEq, Repr

/-- The mutable fields of the second `ConnectionManager` in `src/index.js`. -/
structure State where
  users : List (String × User)
  partnerships : List (String × String)
  waitingQueue : List String
  roomCounter : Nat
  rooms : List (String × Room)
deriving DecidableEq, Repr

/-- The constructor state. -/
def init : State := ⟨[], [], [], 0, []⟩

/-- `addUser` (`src/index.js` lines 337-348): adds a default record and
returns `true` for a fresh id; returns `false` and changes nothing for an
already-registered id. -/
def addUser (s : State) (socketId : String) : Bool × State :=
  if (alookup s.users socketId).isSome then (false, s)
  else (true, { s with users := aset s.users socketId ⟨false, none⟩ })

/-- `addToWaitingQueue`: appends unless already present. -/
def addToWaitingQueue (s : State) (socketId : String) : Bool × State :=
  if socketId ∈ s.waitingQueue then (false, s)
  else (true, { s with waitingQueue := s.waitingQueue ++ [socketId] })

/-- `removeFromWaitingQueue`: splice out the first occurrence. -/
def removeFromWaitingQueue (s : State) (socketId : String) : Bool × State :=
  if socketId ∈ s.waitingQueue then
    (true, { s with waitingQueue := qremove s.waitingQueue socketId })
  else (false, s)

/-- `getNextWaitingUser` of the second variant:
`this.waitingQueue.shift() || null` — a plain pop with no staleness check
(an empty-string id, being falsy, would be swallowed by `|| null`). -/
def getNextWaitingUser (s : State) : Option String × State :=
  match s.waitingQueue with
  | [] => (none, s)
  | x :: rest => ((if x = "" then none else some x), { s with waitingQueue := rest })

/-- `createPartnership` of the second `src/index.js` variant: partnership
map set symmetrically, room stored, both user records marked in-call when
both exist; no precondition (the `try/catch` is unreachable here). -/
def createPartnership (s : State) (socket1Id socket2Id : String) : State × String :=
  let roomId := "room_" ++ toString (s.roomCounter + 1)
  let partnerships := aset (aset s.partnerships socket1Id socket2Id) socket2Id socket1Id
  let rooms := aset s.rooms roomId ⟨[socket1Id, socket2Id]⟩
  let users :=
    match alookup s.users socket1Id, alookup s.users socket2Id with
    | some u1, some u2 =>
      aset (aset s.users socket1Id { u1 with inCall := true, room := some roomId })
        socket2Id { u2 with inCall := true, room := some roomId }
    | _, _ => s.users
  ({ s with roomCounter := s.roomCounter + 1, partnerships := partnerships,
            rooms := rooms, users := users }, roomId)

/-- Resetting one user record inside `breakPartnership`. -/
def resetUser (us : List (String × User)) (pid : String) : List (String × User) :=
  match alookup us pid with
  | some u => aset us pid { u with inCall := false, room := none }
  | none => us

/-- `breakPartnership` (`src/index.js` lines 415-447): deletes the caller's
room, resets both user records and removes both partnership directions. -/
def breakPartnership (s : State) (socketId : String) : State × Option String :=
  match alookup s.partnerships socketId with
  | some partnerId =>
    if partnerId = "" then (s, none)
    else
      let rooms :=
        match alookup s.users socketId with
        | some u =>
          match u.room with
          | some r => if r = "" then s.rooms else adel s.rooms r
          | none => s.rooms
        | none => s.rooms
      let users := resetUser (resetUser s.users socketId) partnerId
      ({ s with rooms := rooms, users := users,
                partnerships := adel (adel s.partnerships socketId) partnerId },
       some partnerId)
  | none => (s, none)

/-- `removeUser`: break a partnership when the record has a truthy room,
then delete the record and leave the waiting queue. -/
def removeUser (s : State) (socketId : String) : State :=
  let s₁ :=
    match alookup s.users socketId with
    | some u => if strTruthy u.room then (breakPartnership s socketId).1 else s
    | none => s
  { s₁ with users := adel s₁.users socketId,
            waitingQueue := qremove s₁.waitingQueue socketId }

/-- The `for (const [roomId, room] of this.rooms)` loop of `validatePeers`
(`src/index.js` lines 449-468): the first room whose participants include
both peers. -/
def validateScan (fromPeerId toPeerId : String) :
    List (String × Room) → Option (String × List String)
  | [] => none
  | (roomId, room) :: rest =>
    if fromPeerId ∈ room.participants ∧ toPeerId ∈ room.participants then
      some (roomId, room.participants)
    else validateScan fromPeerId toPeerId rest

/-- `validatePeers` of the second `src/index.js` variant. -/
def validatePeers (s : State) (fromPeerId toPeerId : String) :
    Option (String × List String) :=
  validateScan fromPeerId toPeerId s.rooms

/-- The validating `socket.on("offer")` handler (`src/index.js`
lines 550-563). -/
def handleOffer (s : State) (senderId peerId payload : String) : State × List Emit :=
  match validatePeers s senderId peerId with
  | none => (s, [Emit.errorMsg senderId "Invalid peer relationship for offer"])
  | some r => (s, [Emit.offerMsg peerId senderId (some r.1) payload])

/-- The validating `socket.on("answer")` handler (`src/index.js`
lines 565-578). -/
def handleAnswer (s : State) (senderId peerId payload : String) : State × List Emit :=
  match validatePeers s senderId peerId with
  | none => (s, [Emit.errorMsg senderId "Invalid peer relationship for answer"])
  | some r => (s, [Emit.answerMsg peerId senderId (some r.1) payload])

/-- The validating `socket.on("ice-candidate")` handler (`src/index.js`
lines 580-595). -/
def handleIceCandidate (s : State) (senderId peerId payload : String) : State × List Emit :=
  match validatePeers s senderId peerId with
  | none => (s, [Emit.errorMsg senderId "Invalid peer relationship for ICE candidate"])
  | some r => (s, [Emit.iceMsg peerId senderId (some r.1) payload])

/-- Result record of `getConnectionStats`. -/
structure ConnStats where
  totalUsers : Nat
  waitingUsers : Nat
  activePartnerships : Nat
deriving DecidableEq, Repr

/-- `getConnectionStats` (`partnerships.size / 2`). -/
def getConnectionStats (s : State) : ConnStats :=
  ⟨s.users.length, s.waitingQueue.length, s.partnerships.length / 2⟩

/-- The `io.on("connection")` body restricted to core state. -/
def handleConnect (s : State) (socketId : String) : State :=
  (addUser s socketId).2

/-- The `socket.on("find-match")` handler (`src/index.js` lines 500-547):
pop a waiting user and partner with it, otherwise enqueue the caller.  It
neither breaks the caller's existing partnership nor skips stale queue
entries. -/
def handleFindMatch (s : State) (socketId : String) : State :=
  let r := getNextWaitingUser s
  match r.1 with
  | some waitingPartnerId => (createPartnership r.2 socketId waitingPartnerId).1
  | none => (addToWaitingQueue r.2 socketId).2

/-- The `socket.on("disconnect")` handler (`src/index.js` lines 597-610). -/
def handleDisconnect (s : State) (socketId : String) : State :=
  removeUser ((breakPartnership s socketId).1) socketId

/-- The inbound events processed by the `src/index.js` second-variant
handlers. -/
inductive Event where
  | connect (socketId : String)
  | findMatch (socketId : String)
  | offer (senderId peerId payload : String)
  | answer (senderId peerId payload : String)
  | ice (senderId peerId payload : String)
  | disconnect (socketId : String)
deriving DecidableEq, Repr

/-- One inbound event processed to completion. -/
def step (s : State) (e : Event) : State :=
  match e with
  | .connect id => handleConnect s id
  | .findMatch id => handleFindMatch s id
  | .offer sender peer payload => (handleOffer s sender peer payload).1
  | .answer sender peer payload => (handleAnswer s sender peer payload).1
  | .ice sender peer payload => (handleIceCandidate s sender peer payload).1
  | .disconnect id => handleDisconnect s id

/-- A whole trace of inbound events. -/
def steps (s : State) (l : List Event) : State := l.foldl step s

/-- States reachable from the constructor state by events that satisfy an
admissibility condition `P` (take `P := fun _ _ => True` for plain
reachability). -/
inductive Reaches (P : State → Event → Prop) : State → Prop where
  | init : Reaches P IndexV2.init
  | step {s : State} {e : Event} : Reaches P s → P s e → Reaches P (IndexV2.step s e)

/-- Admissibility: `find-match` is only issued by a currently-unpartnered
peer. -/
def OkFree (s : State) (e : Event) : Prop :=
  match e with
  | .findMatch id => alookup s.partnerships id = none
  | _ => True

/-- Admissibility: `find-match` is only issued by a peer that is
unpartnered and not already waiting. -/
def OkFresh (s : State) (e : Event) : Prop :=
  match e with
  | .findMatch id => alookup s.partnerships id = none ∧ id ∉ s.waitingQueue
  | _ => True

/-- The inductive invariant behind partnership-map symmetry. -/
def InvSym (s : State) : Prop :=
  s.waitingQueue.length ≤ 1
  ∧ (∀ q ∈ s.waitingQueue, alookup s.partnerships q = none)
  ∧ SymmMap s.partnerships
  ∧ KeysNodup s.partnerships

/-- The inductive invariant behind even partnership-map size. -/
def InvEven (s : State) : Prop :=
  InvSym s ∧ NoSelfMap s.partnerships ∧ Even s.partnerships.length

end IndexV2

namespace P2

/-- Peer record of the `src/unnamed/part_002` `ConnectionManager`
(timestamps omitted). -/
structure User where
  inCall : Bool
  room : Option String
  connectionAttempts : Nat
  signalingState : String
deriving DecidableEq, Repr

/-- Room record of `src/unnamed/part_002` (timestamps, per-peer signaling
map and ICE buffers omitted; `rstate` is the `state` field:
`"connecting"`, `"active"` or `"failed"`). -/
structure Room where
  id : String
  participants : List String
  rstate : String
deriving DecidableEq, Repr

/-- The mutable fields of the `part_002` `ConnectionManager`; the
`connectionTimeouts` map is modelled by the list of room ids with an armed
timer. -/
structure State where
  users : List (String × User)
  partnerships : List (String × String)
  waitingQueue : List String
  roomCounter : Nat
  rooms : List (String × Room)
  connectionTimeouts : List String
deriving DecidableEq, Repr

/-- The constructor state. -/
def init : State := ⟨[], [], [], 0, [], []⟩

/-- `addUser`: unconditionally stores a fresh default record. -/
def addUser (s : State) (socketId : String) : State :=
  { s with users := aset s.users socketId ⟨false, none, 0, "new"⟩ }

/-- Resetting one user record inside `breakPartnership` (this variant also
resets `signalingState`). -/
def resetUser (us : List (String × User)) (pid : String) : List (String × User) :=
  match alookup us pid with
  | some u => aset us pid { u with inCall := false, room := none, signalingState := "new" }
  | none => us

/-- `breakPartnership` (`part_002` lines 318-348): clears the room's
pending timeout, deletes the room, resets both user records and removes
both partnership directions. -/
def breakPartnership (s : State) (socketId : String) : State × Option String :=
  match alookup s.partnerships socketId with
  | some partnerId =>
    if partnerId = "" then (s, none)
    else
      let s₁ :=
        match alookup s.users socketId with
        | some u =>
          match u.room with
          | some r =>
            if r = "" then s
            else { s with connectionTimeouts := qremove s.connectionTimeouts r,
                          rooms := adel s.rooms r }
          | none => s
        | none => s
      let users := resetUser (resetUser s₁.users socketId) partnerId
      ({ s₁ with users := users,
                 partnerships := adel (adel s₁.partnerships socketId) partnerId },
       some partnerId)
  | none => (s, none)

/-- `setConnectionTimeout` (`part_002` lines 261-283): a fresh timer is
armed for the room (any previous timer is cleared; the map keeps one entry
per room id). -/
def setConnectionTimeout (s : State) (roomId : String) : State :=
  if roomId ∈ s.connectionTimeouts then s
  else { s with connectionTimeouts := s.connectionTimeouts ++ [roomId] }

/-- `createPartnership` (`part_002` lines 216-259): break both peers'
existing partnerships, store a `"connecting"` room, set the partnership
map symmetrically, mark both user records when both exist, and arm the
connection timer. -/
def createPartnership (s : State) (socket1Id socket2Id : String) : State × String :=
  let s₁ := (breakPartnership s socket1Id).1
  let s₂ := (breakPartnership s₁ socket2Id).1
  let roomId := "room_" ++ toString (s₂.roomCounter + 1)
  let rooms := aset s₂.rooms roomId ⟨roomId, [socket1Id, socket2Id], "connecting"⟩
  let partnerships := aset (aset s₂.partnerships socket1Id socket2Id) socket2Id socket1Id
  let users :=
    match alookup s₂.users socket1Id, alookup s₂.users socket2Id with
    | some u1, some u2 =>
      aset (aset s₂.users socket1Id { u1 with inCall := true, room := some roomId })
        socket2Id { u2 with inCall := true, room := some roomId }
    | _, _ => s₂.users
  (setConnectionTimeout
    { s₂ with roomCounter := s₂.roomCounter + 1, rooms := rooms,
              partnerships := partnerships, users := users } roomId, roomId)

/-- The `participants.forEach` body of the timeout callback: increment
`connectionAttempts`, clear `inCall` and `room`. -/
def failUser (us : List (String × User)) (pid : String) : List (String × User) :=
  match alookup us pid with
  | some u =>
    aset us pid { u with connectionAttempts := u.connectionAttempts + 1,
                         inCall := false, room := none }
  | none => us

/-- The timer callback armed by `setConnectionTimeout` (`part_002`
lines 266-280), run when the timer fires: if the room still exists in the
`"connecting"` state, mark it `"failed"`, reset all participants, and call
`breakPartnership` on the first participant.  Note the callback itself
never deletes the room or its timeout entry. -/
def fireConnectionTimeout (s : State) (roomId : String) : State :=
  match alookup s.rooms roomId with
  | some room =>
    if room.rstate = "connecting" then
      let s₁ := { s with rooms := aset s.rooms roomId { room with rstate := "failed" } }
      let s₂ := { s₁ with users := room.participants.foldl failUser s₁.users }
      match room.participants with
      | [] => s₂
      | p₀ :: _ => (breakPartnership s₂ p₀).1
    else s
  | none => s

end P2

instance (s : IndexV2.State) (e : IndexV2.Event) : Decidable (IndexV2.OkFree s e) :=
  match e with
  | .connect _ => inferInstanceAs (Decidable True)
  | .findMatch id => inferInstanceAs (Decidable (alookup s.partnerships id = none))
  | .offer _ _ _ => inferInstanceAs (Decidable True)
  | .answer _ _ _ => inferInstanceAs (Decidable True)
  | .ice _ _ _ => inferInstanceAs (Decidable True)
  | .disconnect _ => inferInstanceAs (Decidable True)

instance (s : IndexV2.State) (e : IndexV2.Event) : Decidable (IndexV2.OkFresh s e) :=
  match e with
  | .connect _ => inferInstanceAs (Decidable True)
  | .findMatch id =>
    inferInstanceAs (Decidable (alookup s.partnerships id = none ∧ id ∉ s.waitingQueue))
  | .offer _ _ _ => inferInstanceAs (Decidable True)
  | .answer _ _ _ => inferInstanceAs (Decidable True)
  | .ice _ _ _ => inferInstanceAs (Decidable True)
  | .disconnect _ => inferInstanceAs (Decidable True)

/-! ### Example states used by witnesses and counterexamples -/

/-- A queue holding a stale id (`"w1"` is not registered) in front of an
eligible one (`"w2"` is registered and unpartnered). -/
def gnwuExample : IndexV1.State :=
  ⟨[("w2", ⟨false, none⟩)], [], ["w1", "w2"], 0⟩

/-- Two registered users `"a"` and `"b"` partnered by `createPartnership`
in the `src/connectionManager.js` manager. -/
def pairedExample : CMjs.State :=
  (CMjs.createPartnership (CMjs.addUser (CMjs.addUser CMjs.init "a") "b") "a" "b").1

/-- Three registered users with `"a"` and `"b"` partnered, in the first
`src/index.js` manager. -/
def relayExample : IndexV1.State :=
  (IndexV1.createPartnership
    (IndexV1.addUser (IndexV1.addUser (IndexV1.addUser IndexV1.init "a") "b") "c")
    "a" "b").1

/-- Two registered users `"a"` and `"b"` partnered in the second
`src/index.js` manager. -/
def v2Paired : IndexV2.State :=
  (IndexV2.createPartnership
    (IndexV2.addUser (IndexV2.addUser IndexV2.init "a").2 "b").2 "a" "b").1

/-- Two registered users `"a"` and `"b"` partnered (room `"room_1"` in the
`"connecting"` state, timer armed) in the `part_002` manager. -/
def p2Paired : P2.State :=
  (P2.createPartnership (P2.addUser (P2.addUser P2.init "a") "b") "a" "b").1

/-! ### Association-list map lemmas -/

theorem alookup_aset_self {α : Type} (m : List (String × α)) (k : String) (v : α) :
    alookup (aset m k v) k = some v := by
  induction m with
  | nil => simp [aset, alookup]
  | cons hd tl ih =>
    obtain ⟨k₀, v₀⟩ := hd
    by_cases h : k₀ = k
    · simp [aset, alookup, h]
    · simp [aset, alookup, h, ih]

theorem alookup_aset_ne {α : Type} (m : List (String × α)) {k key : String} (v : α)
    (h : k ≠ key) : alookup (aset m k v) key = alookup m key := by
  induction m with
  | nil => simp [aset, alookup, h]
  | cons hd tl ih =>
    obtain ⟨k₀, v₀⟩ := hd
    by_cases h₀ : k₀ = k
    · subst h₀
      simp [aset, alookup, h]
    · simp [aset, alookup, h₀, ih]

theorem alookup_adel_ne {α : Type} (m : List (String × α)) {k key : String}
    (h : k ≠ key) : alookup (adel m k) key = alookup m key := by
  induction m with
  | nil => simp [adel]
  | cons hd tl ih =>
    obtain ⟨k₀, v₀⟩ := hd
    by_cases h₀ : k₀ = k
    · subst h₀
      simp [adel, alookup, h]
    · simp [adel, alookup, h₀, ih]

theorem alookup_eq_none_of_not_mem {α : Type} (m : List (String × α)) {k : String}
    (h : k ∉ mapKeys m) : alookup m k = none := by
  induction m with
  | nil => rfl
  | cons hd tl ih =>
    obtain ⟨k₀, v₀⟩ := hd
    have h' : ¬(k = k₀ ∨ k ∈ mapKeys tl) := by
      simpa only [mapKeys, List.map_cons, List.mem_cons] using h
    push_neg at h'
    have hne : k₀ ≠ k := fun hc => h'.1 hc.symm
    simp [alookup, hne, ih h'.2]

theorem mem_mapKeys_of_alookup {α : Type} (m : List (String × α)) {k : String} {v : α}
    (h : alookup m k = some v) : k ∈ mapKeys m := by
  induction m with
  | nil => exact absurd h (by simp [alookup])
  | cons hd tl ih =>
    obtain ⟨k₀, v₀⟩ := hd
    by_cases h₀ : k₀ = k
    · simp only [mapKeys, List.map_cons, List.mem_cons]
      exact Or.inl h₀.symm
    · simp only [alookup, h₀, if_false] at h
      simp only [mapKeys, List.map_cons, List.mem_cons]
      exact Or.inr (ih h)

theorem mem_mapKeys_aset {α : Type} (m : List (String × α)) {k key : String} {v : α}
    (h : key ∈ mapKeys (aset m k v)) : key ∈ mapKeys m ∨ key = k := by
  induction m with
  | nil =>
    simp only [aset, mapKeys, List.map_cons, List.map_nil, List.mem_singleton] at h
    exact Or.inr h
  | cons hd tl ih =>
    obtain ⟨k₀, v₀⟩ := hd
    by_cases h₀ : k₀ = k
    · rw [show aset ((k₀, v₀) :: tl) k v = (k, v) :: tl by simp [aset, h₀]] at h
      simp only [mapKeys, List.map_cons, List.mem_cons] at h ⊢
      rcases h with h | h
      · exact Or.inr h
      · exact Or.inl (Or.inr h)
    · rw [show aset ((k₀, v₀) :: tl) k v = (k₀, v₀) :: aset tl k v by simp [aset, h₀]] at h
      simp only [mapKeys, List.map_cons, List.mem_cons] at h ⊢
      rcases h with h | h
      · exact Or.inl (Or.inl h)
      · rcases ih h with h' | h'
        · exact Or.inl (Or.inr h')
        · exact Or.inr h'

theorem keysNodup_aset {α : Type} (m : List (String × α)) (k : String) (v : α)
    (h : KeysNodup m) : KeysNodup (aset m k v) := by
  induction m with
  | nil => simp [KeysNodup, aset, mapKeys]
  | cons hd tl ih =>
    obtain ⟨k₀, v₀⟩ := hd
    have h' : k₀ ∉ mapKeys tl ∧ KeysNodup tl := by
      simpa only [KeysNodup, mapKeys, List.map_cons, List.nodup_cons] using h
    by_cases h₀ : k₀ = k
    · rw [show aset ((k₀, v₀) :: tl) k v = (k, v) :: tl by simp [aset, h₀]]
      simp only [KeysNodup, mapKeys, List.map_cons, List.nodup_cons]
      exact ⟨h₀ ▸ h'.1, h'.2⟩
    · rw [show aset ((k₀, v₀) :: tl) k v = (k₀, v₀) :: aset tl k v by simp [aset, h₀]]
      simp only [KeysNodup, mapKeys, List.map_cons, List.nodup_cons]
      refine ⟨fun hc => ?_, ih h'.2⟩
      rcases mem_mapKeys_aset tl hc with h₂ | h₂
      · exact h'.1 h₂
      · exact h₀ h₂

theorem mapKeys_adel_sublist {α : Type} (m : List (String × α)) (k : String) :
    (mapKeys (adel m k)).Sublist (mapKeys m) := by
  induction m with
  | nil => simp [adel]
  | cons hd tl ih =>
    obtain ⟨k₀, v₀⟩ := hd
    by_cases h₀ : k₀ = k
    · simp only [adel, h₀, if_true, mapKeys, List.map_cons]
      exact List.sublist_cons_of_sublist _ (List.Sublist.refl _)
    · simp only [adel, h₀, if_false, mapKeys, List.map_cons]
      exact List.Sublist.cons₂ _ ih

theorem keysNodup_adel {α : Type} (m : List (String × α)) (k : String)
    (h : KeysNodup m) : KeysNodup (adel m k) :=
  List.Nodup.sublist (mapKeys_adel_sublist m k) h

theorem alookup_adel_self {α : Type} (m : List (String × α)) (k : String)
    (h : KeysNodup m) : alookup (adel m k) k = none := by
  induction m with
  | nil => simp [adel, alookup]
  | cons hd tl ih =>
    obtain ⟨k₀, v₀⟩ := hd
    simp only [KeysNodup, mapKeys, List.map_cons, List.nodup_cons] at h
    by_cases h₀ : k₀ = k
    · subst h₀
      simp only [adel, if_true]
      exact alookup_eq_none_of_not_mem tl (by simpa [mapKeys] using h.1)
    · simp [adel, alookup, h₀, ih h.2]

theorem length_aset_of_some {α : Type} (m : List (String × α)) {k : String} {w : α}
    (v : α) (h : alookup m k = some w) : (aset m k v).length = m.length := by
  induction m with
  | nil => simp [alookup] at h
  | cons hd tl ih =>
    obtain ⟨k₀, v₀⟩ := hd
    by_cases h₀ : k₀ = k
    · simp [aset, h₀]
    · simp only [alookup, h₀, if_false] at h
      simp [aset, h₀, ih h]

theorem length_aset_of_none {α : Type} (m : List (String × α)) {k : String}
    (v : α) (h : alookup m k = none) : (aset m k v).length = m.length + 1 := by
  induction m with
  | nil => simp [aset]
  | cons hd tl ih =>
    obtain ⟨k₀, v₀⟩ := hd
    by_cases h₀ : k₀ = k
    · simp [alookup, h₀] at h
    · simp only [alookup, h₀, if_false] at h
      simp [aset, h₀, ih h]

theorem length_adel_of_some {α : Type} (m : List (String × α)) {k : String} {w : α}
    (h : alookup m k = some w) : m.length = (adel m k).length + 1 := by
  induction m with
  | nil => simp [alookup] at h
  | cons hd tl ih =>
    obtain ⟨k₀, v₀⟩ := hd
    by_cases h₀ : k₀ = k
    · simp [adel, h₀]
    · simp only [alookup, h₀, if_false] at h
      simp [adel, h₀, ih h]

theorem adel_of_none {α : Type} (m : List (String × α)) {k : String}
    (h : alookup m k = none) : adel m k = m := by
  induction m with
  | nil => simp [adel]
  | cons hd tl ih =>
    obtain ⟨k₀, v₀⟩ := hd
    by_cases h₀ : k₀ = k
    · simp [alookup, h₀] at h
    · simp only [alookup, h₀, if_false] at h
      simp [adel, h₀, ih h]

/-! ### Queue lemmas -/

theorem mem_of_mem_qremove {q : List String} {x y : String}
    (h : x ∈ qremove q y) : x ∈ q := by
  induction q with
  | nil => simp [qremove] at h
  | cons hd tl ih =>
    by_cases h₀ : hd = y
    · rw [show qremove (hd :: tl) y = tl by simp [qremove, h₀]] at h
      exact List.mem_cons_of_mem _ h
    · rw [show qremove (hd :: tl) y = hd :: qremove tl y by simp [qremove, h₀]] at h
      rcases List.mem_cons.mp h with h | h
      · rw [h]
        exact List.mem_cons_self _ _
      · exact List.mem_cons_of_mem _ (ih h)

theorem length_qremove_le (q : List String) (y : String) :
    (qremove q y).length ≤ q.length := by
  induction q with
  | nil => simp [qremove]
  | cons hd tl ih =>
    by_cases h₀ : hd = y
    · rw [show qremove (hd :: tl) y = tl by simp [qremove, h₀]]
      simp only [List.length_cons]
      omega
    · rw [show qremove (hd :: tl) y = hd :: qremove tl y by simp [qremove, h₀]]
      simp only [List.length_cons]
      omega

theorem not_mem_qremove_self {q : List String} (y : String) (h : q.Nodup) :
    y ∉ qremove q y := by
  induction q with
  | nil => simp [qremove]
  | cons hd tl ih =>
    rw [List.nodup_cons] at h
    by_cases h₀ : hd = y
    · rw [show qremove (hd :: tl) y = tl by simp [qremove, h₀]]
      exact h₀ ▸ h.1
    · rw [show qremove (hd :: tl) y = hd :: qremove tl y by simp [qremove, h₀]]
      intro hc
      rcases List.mem_cons.mp hc with hc | hc
      · exact h₀ hc.symm
      · exact ih h.2 hc

/-! ### Symmetry lemmas for the partnership map -/

theorem symmMap_insert2 {m : List (String × String)} {a b : String}
    (hs : SymmMap m) (ha : alookup m a = none) (hb : alookup m b = none) :
    SymmMap (aset (aset m a b) b a) := by
  intro x y hxy
  by_cases hxb : x = b
  · rw [hxb, alookup_aset_self] at hxy
    injection hxy with hy
    rw [← hy, hxb]
    by_cases hab : a = b
    · rw [hab, alookup_aset_self]
    · rw [alookup_aset_ne _ _ (fun hc : b = a => hab hc.symm), alookup_aset_self]
  · rw [alookup_aset_ne _ _ (fun hc : b = x => hxb hc.symm)] at hxy
    by_cases hxa : x = a
    · rw [hxa, alookup_aset_self] at hxy
      injection hxy with hy
      rw [← hy, hxa, alookup_aset_self]
    · rw [alookup_aset_ne _ _ (fun hc : a = x => hxa hc.symm)] at hxy
      have hyx := hs x y hxy
      have hya : y ≠ a := by
        intro hc
        rw [hc, ha] at hyx
        exact Option.noConfusion hyx
      have hyb : y ≠ b := by
        intro hc
        rw [hc, hb] at hyx
        exact Option.noConfusion hyx
      rw [alookup_aset_ne _ _ (fun hc : b = y => hyb hc.symm),
        alookup_aset_ne _ _ (fun hc : a = y => hya hc.symm)]
      exact hyx

theorem symmMap_break {m : List (String × String)} {a b : String}
    (hs : SymmMap m) (hn : KeysNodup m) (hab : alookup m a = some b) :
    SymmMap (adel (adel m a) b) := by
  by_cases hba : b = a
  · rw [hba, adel_of_none _ (alookup_adel_self m a hn)]
    intro x y hxy
    have hxa : x ≠ a := by
      intro hc
      rw [hc, alookup_adel_self m a hn] at hxy
      exact Option.noConfusion hxy
    rw [alookup_adel_ne _ (fun hc : a = x => hxa hc.symm)] at hxy
    have hyx := hs x y hxy
    have hya : y ≠ a := by
      intro hc
      rw [hc] at hyx
      rw [hba] at hab
      rw [hab] at hyx
      injection hyx with hc₂
      exact hxa hc₂.symm
    rw [alookup_adel_ne _ (fun hc : a = y => hya hc.symm)]
    exact hyx
  · intro x y hxy
    have hnd : KeysNodup (adel m a) := keysNodup_adel m a hn
    have hxb : x ≠ b := by
      intro hc
      rw [hc, alookup_adel_self _ _ hnd] at hxy
      exact Option.noConfusion hxy
    have hxa : x ≠ a := by
      intro hc
      rw [hc, alookup_adel_ne _ hba, alookup_adel_self m a hn] at hxy
      exact Option.noConfusion hxy
    rw [alookup_adel_ne _ (fun hc : b = x => hxb hc.symm),
      alookup_adel_ne _ (fun hc : a = x => hxa hc.symm)] at hxy
    have hyx := hs x y hxy
    have hya : y ≠ a := by
      intro hc
      rw [hc, hab] at hyx
      injection hyx with hc₂
      exact hxb hc₂.symm
    have hyb : y ≠ b := by
      intro hc
      have hba₂ := hs a b hab
      rw [hc, hba₂] at hyx
      injection hyx with hc₂
      exact hxa hc₂.symm
    rw [alookup_adel_ne _ (fun hc : b = y => hyb hc.symm),
      alookup_adel_ne _ (fun hc : a = y => hya hc.symm)]
    exact hyx

/-! ### Claim C5 — `getNextWaitingUser` skips and discards stale ids -/

theorem gnwuAux_spec (s : IndexV1.State) (q : List String) :
    (∀ id q₂, IndexV1.gnwuAux s q = (some id, q₂) →
      IndexV1.eligible s id = true ∧
      ∃ pre, q = pre ++ id :: q₂ ∧ ∀ x ∈ pre, IndexV1.eligible s x = false)
    ∧ (∀ q₂, IndexV1.gnwuAux s q = (none, q₂) →
      q₂ = [] ∧ ∀ x ∈ q, IndexV1.eligible s x = false) := by
  induction q with
  | nil =>
    constructor
    · intro id q₂ h
      simp [IndexV1.gnwuAux] at h
    · intro q₂ h
      simp only [IndexV1.gnwuAux, Prod.mk.injEq] at h
      exact ⟨h.2.symm, by simp⟩
  | cons nextId rest ih =>
    cases he : IndexV1.eligible s nextId with
    | true =>
      constructor
      · intro id q₂ h
        simp only [IndexV1.gnwuAux, he, if_true, Prod.mk.injEq] at h
        obtain ⟨h₁, h₂⟩ := h
        injection h₁ with h₁
        refine ⟨h₁ ▸ he, [], by simp [h₁, h₂], by simp⟩
      · intro q₂ h
        simp [IndexV1.gnwuAux, he] at h
    | false =>
      constructor
      · intro id q₂ h
        simp only [IndexV1.gnwuAux, he, if_false] at h
        obtain ⟨h₁, pre, h₂, h₃⟩ := ih.1 id q₂ h
        refine ⟨h₁, nextId :: pre, by simp [h₂], ?_⟩
        intro x hx
        rcases List.mem_cons.mp hx with hx | hx
        · exact hx ▸ he
        · exact h₃ x hx
      · intro q₂ h
        simp only [IndexV1.gnwuAux, he, if_false] at h
        obtain ⟨h₁, h₂⟩ := ih.2 q₂ h
        refine ⟨h₁, ?_⟩
        intro x hx
        rcases List.mem_cons.mp hx with hx | hx
        · exact hx ▸ he
        · exact h₂ x hx

/-- Claim C5: `getNextWaitingUser` pops ids off the head of the waiting
queue, skipping and permanently discarding every stale id (unregistered or
already partnered); it returns the first eligible id — itself also removed
from the queue — or `none` with the queue fully drained, and leaves users
and partnerships untouched. -/
theorem claim5_gnwu_skips_stale (s : IndexV1.State) :
    (∀ id : String, (IndexV1.getNextWaitingUser s).1 = some id →
      IndexV1.eligible s id = true ∧
      ∃ pre : List String,
        s.waitingQueue = pre ++ id :: (IndexV1.getNextWaitingUser s).2.waitingQueue ∧
        ∀ x ∈ pre, IndexV1.eligible s x = false)
    ∧ ((IndexV1.getNextWaitingUser s).1 = none →
      (IndexV1.getNextWaitingUser s).2.waitingQueue = [] ∧
      ∀ x ∈ s.waitingQueue, IndexV1.eligible s x = false)
    ∧ (IndexV1.getNextWaitingUser s).2.users = s.users
    ∧ (IndexV1.getNextWaitingUser s).2.partnerships = s.partnerships := by
  rcases hg : IndexV1.gnwuAux s s.waitingQueue with ⟨r₁, r₂⟩
  have hgn : IndexV1.getNextWaitingUser s = (r₁, { s with waitingQueue := r₂ }) := by
    simp [IndexV1.getNextWaitingUser, hg]
  refine ⟨?_, ?_, by simp [hgn], by simp [hgn]⟩
  · intro id h
    rw [hgn] at h
    have h' : r₁ = some id := h
    obtain ⟨h₁, pre, h₂, h₃⟩ :=
      (gnwuAux_spec s s.waitingQueue).1 id r₂ (by rw [hg, h'])
    exact ⟨h₁, pre, by simpa [hgn] using h₂, h₃⟩
  · intro h
    rw [hgn] at h
    have h' : r₁ = none := h
    obtain ⟨h₁, h₂⟩ := (gnwuAux_spec s s.waitingQueue).2 r₂ (by rw [hg, h'])
    exact ⟨by simpa [hgn] using h₁, h₂⟩

/-- Witness for C5 at a concrete queue: the stale head `"w1"` is skipped
and discarded, the eligible `"w2"` is returned and removed. -/
theorem claim5_witness :
    (IndexV1.getNextWaitingUser gnwuExample).1 = some "w2" ∧
    (IndexV1.eligible gnwuExample "w2" = true ∧
      ∃ pre : List String,
        gnwuExample.waitingQueue =
          pre ++ "w2" :: (IndexV1.getNextWaitingUser gnwuExample).2.waitingQueue ∧
        ∀ x ∈ pre, IndexV1.eligible gnwuExample x = false) :=
  ⟨by decide, (claim5_gnwu_skips_stale gnwuExample).1 "w2" (by decide)⟩

/-! ### Claim C7 — what `addToWaitingQueue` actually checks -/

/-- Claim C7 (amended): `addToWaitingQueue` appends the id and returns
`true` exactly when the id is not already queued; registration and room
membership are never consulted.  When the id is queued it returns `false`
and changes nothing. -/
theorem claim7_enqueue_amended (s : CMjs.State) (id : String) :
    (id ∈ s.waitingQueue → CMjs.addToWaitingQueue s id = (false, s))
    ∧ (id ∉ s.waitingQueue →
        CMjs.addToWaitingQueue s id =
          (true, { s with waitingQueue := s.waitingQueue ++ [id] })) := by
  constructor
  · intro h
    simp [CMjs.addToWaitingQueue, h]
  · intro h
    simp [CMjs.addToWaitingQueue, h]

/-- Counterexample to C7 as stated: an unregistered peer (in the empty
state) and a peer currently in a room (in `pairedExample`) are both
appended with result `true`, though the claim requires `false` and an
unchanged queue in both situations. -/
theorem claim7_counterexample :
    (alookup CMjs.init.users "a" = none
      ∧ CMjs.addToWaitingQueue CMjs.init "a" =
          (true, { CMjs.init with waitingQueue := ["a"] }))
    ∧ ((alookup pairedExample.users "a").map CMjs.User.room = some (some "room_1")
      ∧ (CMjs.addToWaitingQueue pairedExample "a").1 = true) := by
  decide

/-- Witness for C7 (amended) at the empty state. -/
theorem claim7_witness :
    "b" ∉ CMjs.init.waitingQueue ∧
      CMjs.addToWaitingQueue CMjs.init "b" =
        (true, { CMjs.init with waitingQueue := CMjs.init.waitingQueue ++ ["b"] }) :=
  ⟨by decide, (claim7_enqueue_amended CMjs.init "b").2 (by decide)⟩

/-! ### Claim C8 — re-registering an existing peer -/

/-- Claim C8 (amended): the `addUser` of the second `src/index.js`
manager returns `false` and leaves the whole state unchanged for an
already-registered id, and adds a default record returning `true` for a
fresh id.  The `addUser` of `src/connectionManager.js`, by contrast,
unconditionally overwrites the record (see the counterexample). -/
theorem claim8_register_amended (s : IndexV2.State) (id : String) :
    (∀ u, alookup s.users id = some u → IndexV2.addUser s id = (false, s))
    ∧ (alookup s.users id = none →
        IndexV2.addUser s id =
          (true, { s with users := aset s.users id ⟨false, none⟩ })) := by
  constructor
  · intro u hu
    simp [IndexV2.addUser, hu]
  · intro h
    simp [IndexV2.addUser, h]

/-- Counterexample to C8 as stated: in `src/connectionManager.js`,
re-registering the in-call peer `"a"` resets its record to the default
(`inCall = false`, `room = null`), so the call is not a no-op (and the
function returns no boolean at all). -/
theorem claim8_counterexample :
    (alookup pairedExample.users "a").map CMjs.User.inCall = some true
    ∧ (alookup (CMjs.addUser pairedExample "a").users "a").map CMjs.User.inCall
        = some false
    ∧ (alookup (CMjs.addUser pairedExample "a").users "a").map CMjs.User.room
        = some none := by
  decide

/-- Witness for C8 (amended) at the empty state. -/
theorem claim8_witness :
    alookup IndexV2.init.users "a" = none ∧
      IndexV2.addUser IndexV2.init "a" =
        (true, { IndexV2.init with users := aset IndexV2.init.users "a" ⟨false, none⟩ }) :=
  ⟨rfl, (claim8_register_amended IndexV2.init "a").2 rfl⟩

/-! ### Claim C2 — `createPartnership` checks no preconditions -/

/-- Claim C2 (amended): `createPartnership` never fails and is not guarded
by any precondition: for every state and any two ids it returns the fresh
room id, increments the counter, stores the room, sets the partnership map
symmetrically (overwriting existing entries), and marks both peer records
in-call exactly when both peers are registered — when either peer is
unregistered the partnership map and room table are still mutated and only
the user records stay unchanged. -/
theorem claim2_create_amended (s : CMjs.State) (a b : String) :
    (CMjs.createPartnership s a b).2 = "room_" ++ toString (s.roomCounter + 1)
    ∧ (CMjs.createPartnership s a b).1.roomCounter = s.roomCounter + 1
    ∧ alookup (CMjs.createPartnership s a b).1.rooms (CMjs.createPartnership s a b).2
        = some ⟨(CMjs.createPartnership s a b).2, [a, b]⟩
    ∧ alookup (CMjs.createPartnership s a b).1.partnerships b = some a
    ∧ (a ≠ b → alookup (CMjs.createPartnership s a b).1.partnerships a = some b)
    ∧ (∀ ua ub, alookup s.users a = some ua → alookup s.users b = some ub →
        alookup (CMjs.createPartnership s a b).1.users b
          = some { ub with inCall := true, room := some (CMjs.createPartnership s a b).2 }
        ∧ (a ≠ b → alookup (CMjs.createPartnership s a b).1.users a
            = some { ua with inCall := true, room := some (CMjs.createPartnership s a b).2 }))
    ∧ ((alookup s.users a = none ∨ alookup s.users b = none) →
        (CMjs.createPartnership s a b).1.users = s.users)
    ∧ (CMjs.createPartnership s a b).1.waitingQueue = s.waitingQueue := by
  have hrooms : (CMjs.createPartnership s a b).1.rooms
      = aset s.rooms ("room_" ++ toString (s.roomCounter + 1))
          ⟨"room_" ++ toString (s.roomCounter + 1), [a, b]⟩ := rfl
  have hparts : (CMjs.createPartnership s a b).1.partnerships
      = aset (aset s.partnerships a b) b a := rfl
  refine ⟨rfl, rfl, ?_, ?_, ?_, ?_, ?_, rfl⟩
  · rw [hrooms]
    exact alookup_aset_self _ _ _
  · rw [hparts]
    exact alookup_aset_self _ _ _
  · intro hab
    rw [hparts, alookup_aset_ne _ _ (fun hc : b = a => hab hc.symm)]
    exact alookup_aset_self _ _ _
  · intro ua ub hua hub
    have husers : (CMjs.createPartnership s a b).1.users
        = aset (aset s.users a
            { ua with inCall := true, room := some (CMjs.createPartnership s a b).2 })
            b { ub with inCall := true, room := some (CMjs.createPartnership s a b).2 } := by
      simp only [CMjs.createPartnership, hua, hub]
    constructor
    · rw [husers]
      exact alookup_aset_self _ _ _
    · intro hab
      rw [husers, alookup_aset_ne _ _ (fun hc : b = a => hab hc.symm)]
      exact alookup_aset_self _ _ _
  · intro h
    rcases ha : alookup s.users a with _ | ua
    · simp only [CMjs.createPartnership, ha]
    · rcases hb : alookup s.users b with _ | ub
      · simp only [CMjs.createPartnership, ha, hb]
      · rcases h with h | h
        · rw [ha] at h
          exact absurd h (by simp)
        · rw [hb] at h
          exact absurd h (by simp)

/-- Counterexample to C2 as stated: with both peers unregistered (the
empty state) the claim demands a `none` result and a completely unchanged
state, but the code still returns `"room_1"`, writes both partnership
directions and stores the room. -/
theorem claim2_counterexample :
    alookup CMjs.init.users "a" = none
    ∧ alookup CMjs.init.users "b" = none
    ∧ CMjs.init.partnerships = []
    ∧ (CMjs.createPartnership CMjs.init "a" "b").2 = "room_1"
    ∧ (CMjs.createPartnership CMjs.init "a" "b").1.partnerships
        = [("a", "b"), ("b", "a")]
    ∧ alookup (CMjs.createPartnership CMjs.init "a" "b").1.rooms "room_1"
        = some ⟨"room_1", ["a", "b"]⟩ := by
  decide

/-- Witness for C2 (amended): both hypotheses of the symmetric-write
clause discharged at the two-user state. -/
theorem claim2_witness :
    "a" ≠ "b" ∧
      alookup (CMjs.createPartnership pairedExample "a" "b").1.partnerships "a"
        = some "b" :=
  ⟨by decide, (claim2_create_amended pairedExample "a" "b").2.2.2.2.1 (by decide)⟩

/-! ### Claim C6 — create then break restores both peers -/

theorem roomId_ne_empty (n : Nat) : ("room_" ++ toString n) ≠ "" := by
  intro h
  have h₂ := congrArg String.length h
  rw [String.length_append] at h₂
  have h₃ : ("room_" : String).length = 5 := rfl
  have h₄ : ("" : String).length = 0 := rfl
  omega

theorem resetUser_eq (us : List (String × CMjs.User)) (pid : String) (u : CMjs.User)
    (h : alookup us pid = some u) :
    CMjs.resetUser us pid = aset us pid { u with inCall := false, room := none } := by
  simp only [CMjs.resetUser, h]

theorem breakPartnership_eq (s : CMjs.State) (a b rid : String) (ua : CMjs.User)
    (hpa : alookup s.partnerships a = some b) (hb0 : b ≠ "")
    (hua : alookup s.users a = some ua) (hroom : ua.room = some rid) (hr0 : rid ≠ "") :
    CMjs.breakPartnership s a =
      ({ s with rooms := adel s.rooms rid,
                users := CMjs.resetUser (CMjs.resetUser s.users a) b,
                partnerships := adel (adel s.partnerships a) b }, some b) := by
  simp only [CMjs.breakPartnership, hpa]
  rw [if_neg hb0]
  simp only [hua, hroom]
  rw [if_neg hr0]

/-- Claim C6: for registered, unpartnered peers A ≠ B (with nonempty
socket ids and well-formed maps), `createPartnership(A,B)` followed by
`breakPartnership(A)` leaves both A and B with `inCall = false` and
`room = null`, removes both partnership directions, and removes the
created room from the room table. -/
theorem claim6_roundtrip (s : CMjs.State) (a b : String) (ua ub : CMjs.User)
    (hab : a ≠ b) (hb0 : b ≠ "")
    (hua : alookup s.users a = some ua) (hub : alookup s.users b = some ub)
    (hpa : alookup s.partnerships a = none) (hpb : alookup s.partnerships b = none)
    (hnp : KeysNodup s.partnerships) (hnr : KeysNodup s.rooms) :
    (alookup (CMjs.breakPartnership (CMjs.createPartnership s a b).1 a).1.users a).map
        CMjs.User.inCall = some false
    ∧ (alookup (CMjs.breakPartnership (CMjs.createPartnership s a b).1 a).1.users a).map
        CMjs.User.room = some none
    ∧ (alookup (CMjs.breakPartnership (CMjs.createPartnership s a b).1 a).1.users b).map
        CMjs.User.inCall = some false
    ∧ (alookup (CMjs.breakPartnership (CMjs.createPartnership s a b).1 a).1.users b).map
        CMjs.User.room = some none
    ∧ alookup (CMjs.breakPartnership (CMjs.createPartnership s a b).1 a).1.partnerships a
        = none
    ∧ alookup (CMjs.breakPartnership (CMjs.createPartnership s a b).1 a).1.partnerships b
        = none
    ∧ alookup (CMjs.breakPartnership (CMjs.createPartnership s a b).1 a).1.rooms
        (CMjs.createPartnership s a b).2 = none := by
  have hba' : b ≠ a := fun hc => hab hc.symm
  have hrid0 : ("room_" ++ toString (s.roomCounter + 1)) ≠ "" := roomId_ne_empty _
  have e_p : (CMjs.createPartnership s a b).1.partnerships
      = aset (aset s.partnerships a b) b a := rfl
  have e_r : (CMjs.createPartnership s a b).1.rooms
      = aset s.rooms ("room_" ++ toString (s.roomCounter + 1))
          ⟨"room_" ++ toString (s.roomCounter + 1), [a, b]⟩ := rfl
  have e_u : (CMjs.createPartnership s a b).1.users
      = aset (aset s.users a
          { ua with inCall := true,
                    room := some ("room_" ++ toString (s.roomCounter + 1)) })
          b { ub with inCall := true,
                      room := some ("room_" ++ toString (s.roomCounter + 1)) } := by
    simp only [CMjs.createPartnership, hua, hub]
  have lp_a : alookup (CMjs.createPartnership s a b).1.partnerships a = some b := by
    rw [e_p, alookup_aset_ne _ _ hba']
    exact alookup_aset_self _ _ _
  have lu_a : alookup (CMjs.createPartnership s a b).1.users a
      = some { ua with inCall := true,
                       room := some ("room_" ++ toString (s.roomCounter + 1)) } := by
    rw [e_u, alookup_aset_ne _ _ hba']
    exact alookup_aset_self _ _ _
  have lu_b : alookup (CMjs.createPartnership s a b).1.users b
      = some { ub with inCall := true,
                       room := some ("room_" ++ toString (s.roomCounter + 1)) } := by
    rw [e_u]
    exact alookup_aset_self _ _ _
  have hbr := breakPartnership_eq (CMjs.createPartnership s a b).1 a b
      ("room_" ++ toString (s.roomCounter + 1)) _ lp_a hb0 lu_a rfl hrid0
  have hra := resetUser_eq _ _ _ lu_a
  have hlb : alookup (CMjs.resetUser (CMjs.createPartnership s a b).1.users a) b
      = some { ub with inCall := true,
                       room := some ("room_" ++ toString (s.roomCounter + 1)) } := by
    rw [hra, alookup_aset_ne _ _ hab]
    exact lu_b
  have hrb := resetUser_eq _ _ _ hlb
  have hnp₁ : KeysNodup (CMjs.createPartnership s a b).1.partnerships := by
    rw [e_p]
    exact keysNodup_aset _ _ _ (keysNodup_aset _ _ _ hnp)
  refine ⟨?_, ?_, ?_, ?_, ?_, ?_, ?_⟩
  · simp only [hbr, hrb]
    rw [alookup_aset_ne _ _ hba', hra]
    rw [alookup_aset_self]
    rfl
  · simp only [hbr, hrb]
    rw [alookup_aset_ne _ _ hba', hra]
    rw [alookup_aset_self]
    rfl
  · simp only [hbr, hrb]
    rw [alookup_aset_self]
    rfl
  · simp only [hbr, hrb]
    rw [alookup_aset_self]
    rfl
  · simp only [hbr]
    rw [alookup_adel_ne _ hba']
    exact alookup_adel_self _ _ hnp₁
  · simp only [hbr]
    exact alookup_adel_self _ _ (keysNodup_adel _ _ hnp₁)
  · simp only [hbr]
    rw [e_r]
    exact alookup_adel_self _ _ (keysNodup_aset _ _ _ hnr)

/-- Witness for C6: the round trip at a concrete two-user state. -/
theorem claim6_witness :
    alookup (CMjs.breakPartnership
        (CMjs.createPartnership (CMjs.addUser (CMjs.addUser CMjs.init "a") "b") "a" "b").1
        "a").1.partnerships "a" = none
    ∧ alookup (CMjs.breakPartnership
        (CMjs.createPartnership (CMjs.addUser (CMjs.addUser CMjs.init "a") "b") "a" "b").1
        "a").1.rooms
        (CMjs.createPartnership (CMjs.addUser (CMjs.addUser CMjs.init "a") "b") "a" "b").2
        = none :=
  have h := claim6_roundtrip (CMjs.addUser (CMjs.addUser CMjs.init "a") "b") "a" "b"
    ⟨"a", false, none⟩ ⟨"b", false, none⟩
    (by decide) (by decide) (by decide) (by decide) (by decide) (by decide)
    (by decide) (by decide)
  ⟨h.2.2.2.2.1, h.2.2.2.2.2.2⟩

/-! ### Claim C10 — `removeUser` leaves no dangling reference -/

theorem keysNodup_resetUser (us : List (String × CMjs.User)) (pid : String)
    (h : KeysNodup us) : KeysNodup (CMjs.resetUser us pid) := by
  rcases h₂ : alookup us pid with _ | u
  · simp only [CMjs.resetUser, h₂]
    exact h
  · simp only [CMjs.resetUser, h₂]
    exact keysNodup_aset _ _ _ h

/-- Claim C10: in a state satisfying the data-model invariants (symmetric
partnership map with unique, nonempty values, a peer is a partnership key
iff its user record carries a truthy room, duplicate-free users map and
queue), `removeUser(p)` removes `p` from the users map and the waiting
queue and from both sides of the partnership map — no dangling reference
to `p` remains in core state. -/
theorem claim10_removeUser_no_dangling (s : CMjs.State) (p : String)
    (hsym : SymmMap s.partnerships)
    (hnp : KeysNodup s.partnerships)
    (hnu : KeysNodup s.users)
    (hq : s.waitingQueue.Nodup)
    (hne : ∀ x, alookup s.partnerships x ≠ some "")
    (hkr : ∀ x, (alookup s.partnerships x).isSome = true ↔
      ∃ u, alookup s.users x = some u ∧ strTruthy u.room = true) :
    alookup (CMjs.removeUser s p).users p = none
    ∧ p ∉ (CMjs.removeUser s p).waitingQueue
    ∧ alookup (CMjs.removeUser s p).partnerships p = none
    ∧ ∀ x, alookup (CMjs.removeUser s p).partnerships x ≠ some p := by
  rcases hup : alookup s.users p with _ | u
  · -- p is not registered, hence not partnered: the breaking branch is skipped
    have hpk : alookup s.partnerships p = none := by
      rcases h₂ : alookup s.partnerships p with _ | q
      · rfl
      · obtain ⟨u, hu, _⟩ := (hkr p).mp (by rw [h₂]; rfl)
        rw [hup] at hu
        exact Option.noConfusion hu
    have hrm1 : (CMjs.removeUser s p).users = adel s.users p := by
      simp only [CMjs.removeUser, hup]
    have hrm2 : (CMjs.removeUser s p).waitingQueue = qremove s.waitingQueue p := by
      simp only [CMjs.removeUser, hup]
    have hrm3 : (CMjs.removeUser s p).partnerships = s.partnerships := by
      simp only [CMjs.removeUser, hup]
    refine ⟨?_, ?_, ?_, ?_⟩
    · rw [hrm1]
      exact alookup_adel_self _ _ hnu
    · rw [hrm2]
      exact not_mem_qremove_self _ hq
    · rw [hrm3]
      exact hpk
    · intro x hx
      rw [hrm3] at hx
      have h₂ := hsym x p hx
      rw [hpk] at h₂
      exact Option.noConfusion h₂
  · rcases hts : strTruthy u.room with _ | _
    · -- registered but roomless, hence not partnered
      have hpk : alookup s.partnerships p = none := by
        rcases h₂ : alookup s.partnerships p with _ | q
        · rfl
        · obtain ⟨u₂, hu₂, ht₂⟩ := (hkr p).mp (by rw [h₂]; rfl)
          rw [hup] at hu₂
          injection hu₂ with hu₂
          rw [← hu₂] at ht₂
          rw [hts] at ht₂
          exact Bool.noConfusion ht₂
      have hrm1 : (CMjs.removeUser s p).users = adel s.users p := by
        simp [CMjs.removeUser, hup, hts]
      have hrm2 : (CMjs.removeUser s p).waitingQueue = qremove s.waitingQueue p := by
        simp [CMjs.removeUser, hup, hts]
      have hrm3 : (CMjs.removeUser s p).partnerships = s.partnerships := by
        simp [CMjs.removeUser, hup, hts]
      refine ⟨?_, ?_, ?_, ?_⟩
      · rw [hrm1]
        exact alookup_adel_self _ _ hnu
      · rw [hrm2]
        exact not_mem_qremove_self _ hq
      · rw [hrm3]
        exact hpk
      · intro x hx
        rw [hrm3] at hx
        have h₂ := hsym x p hx
        rw [hpk] at h₂
        exact Option.noConfusion h₂
    · -- registered with a truthy room, hence partnered: the room is torn down
      have hps : (alookup s.partnerships p).isSome = true :=
        (hkr p).mpr ⟨u, hup, hts⟩
      rcases hpp : alookup s.partnerships p with _ | q
      · rw [hpp] at hps
        exact Bool.noConfusion hps
      obtain ⟨r, hur, hr0⟩ : ∃ r, u.room = some r ∧ r ≠ "" := by
        rcases hor : u.room with _ | r
        · rw [hor] at hts
          exact Bool.noConfusion hts
        · refine ⟨r, rfl, ?_⟩
          intro hc
          rw [hor, hc] at hts
          simp [strTruthy] at hts
      have hq0 : q ≠ "" := by
        intro hc
        exact hne p (by rw [hpp, hc])
      have hbru := breakPartnership_eq s p q r u hpp hq0 hup hur hr0
      have hrm1 : (CMjs.removeUser s p).users
          = adel (CMjs.resetUser (CMjs.resetUser s.users p) q) p := by
        simp [CMjs.removeUser, hup, hts, hbru]
      have hrm2 : (CMjs.removeUser s p).waitingQueue = qremove s.waitingQueue p := by
        simp [CMjs.removeUser, hup, hts, hbru]
      have hrm3 : (CMjs.removeUser s p).partnerships
          = adel (adel s.partnerships p) q := by
        simp [CMjs.removeUser, hup, hts, hbru]
      have h₃ : alookup (adel (adel s.partnerships p) q) p = none := by
        by_cases hqp : q = p
        · rw [hqp]
          exact alookup_adel_self _ _ (keysNodup_adel _ _ hnp)
        · rw [alookup_adel_ne _ hqp]
          exact alookup_adel_self _ _ hnp
      have h₄ : alookup (adel (adel s.partnerships p) q) q = none :=
        alookup_adel_self _ _ (keysNodup_adel _ _ hnp)
      refine ⟨?_, ?_, ?_, ?_⟩
      · rw [hrm1]
        exact alookup_adel_self _ _
          (keysNodup_resetUser _ _ (keysNodup_resetUser _ _ hnu))
      · rw [hrm2]
        exact not_mem_qremove_self _ hq
      · rw [hrm3]
        exact h₃
      · intro x hx
        rw [hrm3] at hx
        have hxp : x ≠ p := by
          intro hc
          rw [hc, h₃] at hx
          exact Option.noConfusion hx
        have hxq : x ≠ q := by
          intro hc
          rw [hc, h₄] at hx
          exact Option.noConfusion hx
        rw [alookup_adel_ne _ (fun hc : q = x => hxq hc.symm),
          alookup_adel_ne _ (fun hc : p = x => hxp hc.symm)] at hx
        have h₅ := hsym x p hx
        rw [hpp] at h₅
        injection h₅ with h₅
        exact hxq h₅.symm

/-- Witness for C10: removing the partnered peer `"a"` from the concrete
two-user paired state. -/
theorem claim10_witness :
    alookup (CMjs.removeUser pairedExample "a").users "a" = none
    ∧ "a" ∉ (CMjs.removeUser pairedExample "a").waitingQueue
    ∧ alookup (CMjs.removeUser pairedExample "a").partnerships "a" = none
    ∧ ∀ x, alookup (CMjs.removeUser pairedExample "a").partnerships x ≠ some "a" := by
  refine claim10_removeUser_no_dangling pairedExample "a" ?_ (by decide) (by decide)
    (by decide) ?_ ?_
  · intro x y hxy
    have hmem := mem_mapKeys_of_alookup _ hxy
    have hk : mapKeys pairedExample.partnerships = ["a", "b"] := by decide
    rw [hk] at hmem
    rcases List.mem_cons.mp hmem with hx | hx
    · rw [hx] at hxy ⊢
      rw [show alookup pairedExample.partnerships "a" = some "b" from by decide] at hxy
      injection hxy with hy
      rw [← hy]
      decide
    · rcases List.mem_cons.mp hx with hx | hx
      · rw [hx] at hxy ⊢
        rw [show alookup pairedExample.partnerships "b" = some "a" from by decide] at hxy
        injection hxy with hy
        rw [← hy]
        decide
      · simp at hx
  · intro x hx
    have hmem := mem_mapKeys_of_alookup _ hx
    have hk : mapKeys pairedExample.partnerships = ["a", "b"] := by decide
    rw [hk] at hmem
    rcases List.mem_cons.mp hmem with h₂ | h₂
    · rw [h₂] at hx
      rw [show alookup pairedExample.partnerships "a" = some "b" from by decide] at hx
      injection hx with hy
      exact absurd hy (by decide)
    · rcases List.mem_cons.mp h₂ with h₂ | h₂
      · rw [h₂] at hx
        rw [show alookup pairedExample.partnerships "b" = some "a" from by decide] at hx
        injection hx with hy
        exact absurd hy (by decide)
      · simp at h₂
  · intro x
    constructor
    · intro h
      obtain ⟨y, hy⟩ := Option.isSome_iff_exists.mp h
      have hmem := mem_mapKeys_of_alookup _ hy
      have hk : mapKeys pairedExample.partnerships = ["a", "b"] := by decide
      rw [hk] at hmem
      rcases List.mem_cons.mp hmem with h₂ | h₂
      · rw [h₂]
        exact ⟨⟨"a", true, some "room_1"⟩, by decide, by decide⟩
      · rcases List.mem_cons.mp h₂ with h₂ | h₂
        · rw [h₂]
          exact ⟨⟨"b", true, some "room_1"⟩, by decide, by decide⟩
        · simp at h₂
    · rintro ⟨u, hu, htr⟩
      have hmem := mem_mapKeys_of_alookup _ hu
      have hk : mapKeys pairedExample.users = ["a", "b"] := by decide
      rw [hk] at hmem
      rcases List.mem_cons.mp hmem with h₂ | h₂
      · rw [h₂]
        decide
      · rcases List.mem_cons.mp h₂ with h₂ | h₂
        · rw [h₂]
          decide
        · simp at h₂

/-! ### Claim C1 — relay authorization -/

theorem validateScan_some_iff (a c : String) (rooms : List (String × IndexV2.Room)) :
    (IndexV2.validateScan a c rooms).isSome = true ↔
      ∃ rid room, (rid, room) ∈ rooms ∧ a ∈ room.participants ∧ c ∈ room.participants := by
  induction rooms with
  | nil => simp [IndexV2.validateScan]
  | cons hd tl ih =>
    obtain ⟨rid₀, room₀⟩ := hd
    by_cases h₀ : a ∈ room₀.participants ∧ c ∈ room₀.participants
    · simp only [IndexV2.validateScan, if_pos h₀, Option.isSome_some]
      constructor
      · intro _
        exact ⟨rid₀, room₀, List.mem_cons_self _ _, h₀.1, h₀.2⟩
      · intro _
        trivial
    · simp only [IndexV2.validateScan, if_neg h₀]
      rw [ih]
      constructor
      · rintro ⟨rid, room, hmem, ha, hc⟩
        exact ⟨rid, room, List.mem_cons_of_mem _ hmem, ha, hc⟩
      · rintro ⟨rid, room, hmem, ha, hc⟩
        rcases List.mem_cons.mp hmem with heq | hmem
        · rw [Prod.mk.injEq] at heq
          exact absurd ⟨heq.2 ▸ ha, heq.2 ▸ hc⟩ h₀
        · exact ⟨rid, room, hmem, ha, hc⟩

/-- Claim C1 (amended): the validating relay handlers of `src/index.js`
(lines 550-595) never mutate core state; when `validatePeers(A, C)` finds
no shared room they emit exactly one validation error to the sender A and
forward nothing, and they forward the stamped payload to C exactly when
`validatePeers` returns the shared room — which happens precisely when
some room's participant list contains both A and C.  (The legacy handlers
at `src/index.js` lines 219-241 instead forward unconditionally; see the
counterexample.) -/
theorem claim1_relay_amended (s : IndexV2.State) (a c payload : String) :
    (IndexV2.handleOffer s a c payload).1 = s
    ∧ (IndexV2.handleAnswer s a c payload).1 = s
    ∧ (IndexV2.handleIceCandidate s a c payload).1 = s
    ∧ (IndexV2.validatePeers s a c = none →
        (IndexV2.handleOffer s a c payload).2
          = [Emit.errorMsg a "Invalid peer relationship for offer"]
        ∧ (IndexV2.handleAnswer s a c payload).2
          = [Emit.errorMsg a "Invalid peer relationship for answer"]
        ∧ (IndexV2.handleIceCandidate s a c payload).2
          = [Emit.errorMsg a "Invalid peer relationship for ICE candidate"])
    ∧ (∀ rid parts, IndexV2.validatePeers s a c = some (rid, parts) →
        (IndexV2.handleOffer s a c payload).2 = [Emit.offerMsg c a (some rid) payload]
        ∧ (IndexV2.handleAnswer s a c payload).2 = [Emit.answerMsg c a (some rid) payload]
        ∧ (IndexV2.handleIceCandidate s a c payload).2
          = [Emit.iceMsg c a (some rid) payload])
    ∧ ((IndexV2.validatePeers s a c).isSome = true ↔
        ∃ rid room, (rid, room) ∈ s.rooms ∧ a ∈ room.participants
          ∧ c ∈ room.participants) := by
  refine ⟨?_, ?_, ?_, ?_, ?_, validateScan_some_iff a c s.rooms⟩
  · rcases hv : IndexV2.validatePeers s a c with _ | r
    · simp [IndexV2.handleOffer, hv]
    · simp [IndexV2.handleOffer, hv]
  · rcases hv : IndexV2.validatePeers s a c with _ | r
    · simp [IndexV2.handleAnswer, hv]
    · simp [IndexV2.handleAnswer, hv]
  · rcases hv : IndexV2.validatePeers s a c with _ | r
    · simp [IndexV2.handleIceCandidate, hv]
    · simp [IndexV2.handleIceCandidate, hv]
  · intro hv
    exact ⟨by simp [IndexV2.handleOffer, hv], by simp [IndexV2.handleAnswer, hv],
      by simp [IndexV2.handleIceCandidate, hv]⟩
  · intro rid parts hv
    exact ⟨by simp [IndexV2.handleOffer, hv], by simp [IndexV2.handleAnswer, hv],
      by simp [IndexV2.handleIceCandidate, hv]⟩

/-- Counterexample to C1 as stated: the `src/index.js` legacy handlers
(lines 219-241) forward an offer from `"a"` to `"c"` even though `"c"` is
not `"a"`'s partner, and emit no error — no validation happens at all. -/
theorem claim1_counterexample :
    alookup relayExample.partnerships "a" = some "b"
    ∧ alookup relayExample.partnerships "c" = none
    ∧ IndexV1.handleOffer relayExample "a" "c" "sdp"
        = (relayExample, [Emit.offerMsg "c" "a" none "sdp"]) := by
  decide

/-- Witness for C1 (amended): relaying from `"a"` to the outsider `"x"`
in a concrete paired state produces exactly one error to `"a"`. -/
theorem claim1_witness :
    IndexV2.validatePeers v2Paired "a" "x" = none
    ∧ ((IndexV2.handleOffer v2Paired "a" "x" "sdp").2
        = [Emit.errorMsg "a" "Invalid peer relationship for offer"]
      ∧ (IndexV2.handleAnswer v2Paired "a" "x" "sdp").2
        = [Emit.errorMsg "a" "Invalid peer relationship for answer"]
      ∧ (IndexV2.handleIceCandidate v2Paired "a" "x" "sdp").2
        = [Emit.errorMsg "a" "Invalid peer relationship for ICE candidate"]) :=
  ⟨by decide, (claim1_relay_amended v2Paired "a" "x" "sdp").2.2.2.1 (by decide)⟩

/-! ### Claim C3 — connection timeout marks the room failed but never deletes it -/

theorem p2_resetUser_eq (us : List (String × P2.User)) (pid : String) (u : P2.User)
    (h : alookup us pid = some u) :
    P2.resetUser us pid
      = aset us pid { u with inCall := false, room := none, signalingState := "new" } := by
  simp only [P2.resetUser, h]

theorem p2_failUser_eq (us : List (String × P2.User)) (pid : String) (u : P2.User)
    (h : alookup us pid = some u) :
    P2.failUser us pid
      = aset us pid { u with connectionAttempts := u.connectionAttempts + 1,
                             inCall := false, room := none } := by
  simp only [P2.failUser, h]

theorem p2_break_roomless (s : P2.State) (a b : String) (u : P2.User)
    (hpa : alookup s.partnerships a = some b) (hb0 : b ≠ "")
    (hua : alookup s.users a = some u) (hroom : u.room = none) :
    P2.breakPartnership s a =
      ({ s with users := P2.resetUser (P2.resetUser s.users a) b,
                partnerships := adel (adel s.partnerships a) b }, some b) := by
  simp only [P2.breakPartnership, hpa]
  rw [if_neg hb0]
  simp only [hua, hroom]

/-- Claim C3 (amended): when the connection timer of a still-`connecting`
room fires, the room is marked `"failed"` and both participants are
returned to the unpartnered state (`inCall = false`, `room = null`,
`connectionAttempts` incremented, both partnership directions removed) —
but the failed room is NOT deleted from the room table, and its timeout
handle stays registered: the callback nulls both users' `room` fields
before calling `breakPartnership`, so the room-deletion branch of
`breakPartnership` never fires. -/
theorem claim3_timeout_amended (s : P2.State) (roomId a b : String)
    (ua ub : P2.User)
    (hroom : alookup s.rooms roomId = some ⟨roomId, [a, b], "connecting"⟩)
    (hab : a ≠ b) (hb0 : b ≠ "")
    (hua : alookup s.users a = some ua) (hub : alookup s.users b = some ub)
    (hpa : alookup s.partnerships a = some b)
    (hnp : KeysNodup s.partnerships)
    (harmed : roomId ∈ s.connectionTimeouts) :
    alookup (P2.fireConnectionTimeout s roomId).rooms roomId
        = some ⟨roomId, [a, b], "failed"⟩
    ∧ roomId ∈ (P2.fireConnectionTimeout s roomId).connectionTimeouts
    ∧ (alookup (P2.fireConnectionTimeout s roomId).users a).map P2.User.inCall
        = some false
    ∧ (alookup (P2.fireConnectionTimeout s roomId).users a).map P2.User.room
        = some none
    ∧ (alookup (P2.fireConnectionTimeout s roomId).users a).map
        P2.User.connectionAttempts = some (ua.connectionAttempts + 1)
    ∧ (alookup (P2.fireConnectionTimeout s roomId).users b).map P2.User.inCall
        = some false
    ∧ (alookup (P2.fireConnectionTimeout s roomId).users b).map P2.User.room
        = some none
    ∧ alookup (P2.fireConnectionTimeout s roomId).partnerships a = none
    ∧ alookup (P2.fireConnectionTimeout s roomId).partnerships b = none := by
  have hba' : b ≠ a := fun hc => hab hc.symm
  have hfa : P2.failUser s.users a
      = aset s.users a { ua with connectionAttempts := ua.connectionAttempts + 1,
                                 inCall := false, room := none } :=
    p2_failUser_eq _ _ _ hua
  have hlb₁ : alookup (P2.failUser s.users a) b = some ub := by
    rw [hfa, alookup_aset_ne _ _ hab]
    exact hub
  have hfb : P2.failUser (P2.failUser s.users a) b
      = aset (P2.failUser s.users a) b
          { ub with connectionAttempts := ub.connectionAttempts + 1,
                    inCall := false, room := none } :=
    p2_failUser_eq _ _ _ hlb₁
  have hlua₂ : alookup (P2.failUser (P2.failUser s.users a) b) a
      = some { ua with connectionAttempts := ua.connectionAttempts + 1,
                       inCall := false, room := none } := by
    rw [hfb, alookup_aset_ne _ _ hba', hfa]
    exact alookup_aset_self _ _ _
  have hfire : P2.fireConnectionTimeout s roomId
      = (P2.breakPartnership
          { s with rooms := aset s.rooms roomId ⟨roomId, [a, b], "failed"⟩,
                   users := P2.failUser (P2.failUser s.users a) b } a).1 := by
    simp [P2.fireConnectionTimeout, hroom, List.foldl_cons, List.foldl_nil]
  have hbr := p2_break_roomless
      { s with rooms := aset s.rooms roomId ⟨roomId, [a, b], "failed"⟩,
               users := P2.failUser (P2.failUser s.users a) b } a b
      { ua with connectionAttempts := ua.connectionAttempts + 1,
                inCall := false, room := none }
      hpa hb0 hlua₂ rfl
  rw [hfire, hbr]
  have hra := p2_resetUser_eq _ a _ hlua₂
  have hlb₂ : alookup (P2.resetUser (P2.failUser (P2.failUser s.users a) b) a) b
      = some { ub with connectionAttempts := ub.connectionAttempts + 1,
                       inCall := false, room := none } := by
    rw [hra, alookup_aset_ne _ _ hab, hfb]
    exact alookup_aset_self _ _ _
  have hrb := p2_resetUser_eq _ b _ hlb₂
  refine ⟨?_, harmed, ?_, ?_, ?_, ?_, ?_, ?_, ?_⟩
  · exact alookup_aset_self _ _ _
  · rw [hrb, alookup_aset_ne _ _ hba', hra, alookup_aset_self]
    rfl
  · rw [hrb, alookup_aset_ne _ _ hba', hra, alookup_aset_self]
    rfl
  · rw [hrb, alookup_aset_ne _ _ hba', hra, alookup_aset_self]
    rfl
  · rw [hrb, alookup_aset_self]
    rfl
  · rw [hrb, alookup_aset_self]
    rfl
  · rw [alookup_adel_ne _ hba']
    exact alookup_adel_self _ _ hnp
  · exact alookup_adel_self _ _ (keysNodup_adel _ _ hnp)

/-- Counterexample to C3 as stated: in the concrete paired state the timer
fires on the `"connecting"` room `"room_1"`, yet afterwards `"room_1"` is
still in the room table (now `"failed"`) instead of being deleted, and its
timeout entry also remains. -/
theorem claim3_counterexample :
    alookup p2Paired.rooms "room_1" = some ⟨"room_1", ["a", "b"], "connecting"⟩
    ∧ "room_1" ∈ p2Paired.connectionTimeouts
    ∧ alookup (P2.fireConnectionTimeout p2Paired "room_1").rooms "room_1"
        = some ⟨"room_1", ["a", "b"], "failed"⟩
    ∧ "room_1" ∈ (P2.fireConnectionTimeout p2Paired "room_1").connectionTimeouts := by
  decide

/-- Witness for C3 (amended) at the concrete paired state. -/
theorem claim3_witness :
    (alookup (P2.fireConnectionTimeout p2Paired "room_1").users "a").map P2.User.inCall
        = some false
    ∧ alookup (P2.fireConnectionTimeout p2Paired "room_1").partnerships "a" = none :=
  have h := claim3_timeout_amended p2Paired "room_1" "a" "b"
    ⟨true, some "room_1", 0, "new"⟩ ⟨true, some "room_1", 0, "new"⟩
    (by decide) (by decide) (by decide) (by decide) (by decide) (by decide)
    (by decide) (by decide)
  ⟨h.2.2.1, h.2.2.2.2.2.2.2.1⟩

/-! ### The `src/index.js` (second variant) event machine: invariants -/

theorem alookup_adel_of_none {α : Type} (m : List (String × α)) {k q : String}
    (hn : KeysNodup m) (h : alookup m q = none) : alookup (adel m k) q = none := by
  by_cases hkq : k = q
  · rw [hkq]
    exact alookup_adel_self _ _ hn
  · rw [alookup_adel_ne _ hkq]
    exact h

theorem v2_handleOffer_state (s : IndexV2.State) (a c p : String) :
    (IndexV2.handleOffer s a c p).1 = s := by
  rcases hv : IndexV2.validatePeers s a c with _ | r <;> simp [IndexV2.handleOffer, hv]

theorem v2_handleAnswer_state (s : IndexV2.State) (a c p : String) :
    (IndexV2.handleAnswer s a c p).1 = s := by
  rcases hv : IndexV2.validatePeers s a c with _ | r <;> simp [IndexV2.handleAnswer, hv]

theorem v2_handleIce_state (s : IndexV2.State) (a c p : String) :
    (IndexV2.handleIceCandidate s a c p).1 = s := by
  rcases hv : IndexV2.validatePeers s a c with _ | r <;>
    simp [IndexV2.handleIceCandidate, hv]

theorem v2_break_cases (s : IndexV2.State) (id : String) :
    ((IndexV2.breakPartnership s id).1.partnerships = s.partnerships
      ∧ (IndexV2.breakPartnership s id).1.waitingQueue = s.waitingQueue)
    ∨ ∃ partner, alookup s.partnerships id = some partner
        ∧ (IndexV2.breakPartnership s id).1.partnerships
            = adel (adel s.partnerships id) partner
        ∧ (IndexV2.breakPartnership s id).1.waitingQueue = s.waitingQueue := by
  rcases hp : alookup s.partnerships id with _ | partner
  · left
    constructor <;> simp [IndexV2.breakPartnership, hp]
  · by_cases he : partner = ""
    · left
      constructor <;> simp [IndexV2.breakPartnership, hp, he]
    · right
      refine ⟨partner, rfl, ?_, ?_⟩ <;> simp [IndexV2.breakPartnership, hp, he]

theorem v2_break_invSym (s : IndexV2.State) (id : String) (h : IndexV2.InvSym s) :
    IndexV2.InvSym (IndexV2.breakPartnership s id).1 := by
  obtain ⟨hlen, hqu, hsym, hnd⟩ := h
  rcases v2_break_cases s id with ⟨h₁, h₂⟩ | ⟨partner, hp, h₁, h₂⟩
  · exact ⟨by rw [h₂]; exact hlen,
      by rw [h₁, h₂]; exact hqu,
      by rw [h₁]; exact hsym,
      by rw [h₁]; exact hnd⟩
  · refine ⟨by rw [h₂]; exact hlen, ?_, ?_, ?_⟩
    · intro q hq
      rw [h₂] at hq
      rw [h₁]
      exact alookup_adel_of_none _ (keysNodup_adel _ _ hnd)
        (alookup_adel_of_none _ hnd (hqu q hq))
    · rw [h₁]
      exact symmMap_break hsym hnd hp
    · rw [h₁]
      exact keysNodup_adel _ _ (keysNodup_adel _ _ hnd)

theorem v2_invSym_qremove_users (s : IndexV2.State) (id : String)
    (h : IndexV2.InvSym s) :
    IndexV2.InvSym { s with users := adel s.users id,
                            waitingQueue := qremove s.waitingQueue id } := by
  obtain ⟨hlen, hqu, hsym, hnd⟩ := h
  exact ⟨le_trans (length_qremove_le _ _) hlen,
    fun q hq => hqu q (mem_of_mem_qremove hq), hsym, hnd⟩

theorem v2_removeUser_invSym (s : IndexV2.State) (id : String) (h : IndexV2.InvSym s) :
    IndexV2.InvSym (IndexV2.removeUser s id) := by
  rcases hu : alookup s.users id with _ | u
  · have he : IndexV2.removeUser s id
        = { s with users := adel s.users id,
                   waitingQueue := qremove s.waitingQueue id } := by
      simp only [IndexV2.removeUser, hu]
    rw [he]
    exact v2_invSym_qremove_users s id h
  · rcases ht : strTruthy u.room with _ | _
    · have he : IndexV2.removeUser s id
          = { s with users := adel s.users id,
                     waitingQueue := qremove s.waitingQueue id } := by
        simp [IndexV2.removeUser, hu, ht]
      rw [he]
      exact v2_invSym_qremove_users s id h
    · have he : IndexV2.removeUser s id
          = { (IndexV2.breakPartnership s id).1 with
              users := adel (IndexV2.breakPartnership s id).1.users id,
              waitingQueue := qremove (IndexV2.breakPartnership s id).1.waitingQueue id } := by
        simp [IndexV2.removeUser, hu, ht]
      rw [he]
      exact v2_invSym_qremove_users _ id (v2_break_invSym s id h)

theorem v2_findMatch_empty (s : IndexV2.State) (id : String)
    (hq : s.waitingQueue = []) :
    IndexV2.handleFindMatch s id = { s with waitingQueue := [id] } := by
  simp [IndexV2.handleFindMatch, IndexV2.getNextWaitingUser, IndexV2.addToWaitingQueue, hq]

theorem v2_findMatch_blank (s : IndexV2.State) (id : String)
    (hq : s.waitingQueue = [""]) :
    IndexV2.handleFindMatch s id = { s with waitingQueue := [id] } := by
  simp [IndexV2.handleFindMatch, IndexV2.getNextWaitingUser, IndexV2.addToWaitingQueue, hq]

theorem v2_findMatch_pop (s : IndexV2.State) (id x : String)
    (hq : s.waitingQueue = [x]) (hx : x ≠ "") :
    IndexV2.handleFindMatch s id
      = (IndexV2.createPartnership { s with waitingQueue := [] } id x).1 := by
  simp only [IndexV2.handleFindMatch, IndexV2.getNextWaitingUser, hq]
  rw [if_neg hx]

theorem v2_findMatch_invSym (s : IndexV2.State) (id : String) (h : IndexV2.InvSym s)
    (hok : alookup s.partnerships id = none) :
    IndexV2.InvSym (IndexV2.handleFindMatch s id) := by
  obtain ⟨hlen, hqu, hsym, hnd⟩ := h
  rcases hq : s.waitingQueue with _ | ⟨x, rest⟩
  · rw [v2_findMatch_empty s id hq]
    refine ⟨by simp, ?_, hsym, hnd⟩
    intro q hmem
    rcases List.mem_cons.mp hmem with h₂ | h₂
    · rw [h₂]
      exact hok
    · simp at h₂
  · have hrest : rest = [] := by
      rw [hq, List.length_cons] at hlen
      have := Nat.le_zero.mp (Nat.lt_succ_iff.mp hlen)
      exact List.eq_nil_of_length_eq_zero this
    by_cases hx : x = ""
    · rw [hx] at hq
      rw [hrest] at hq
      rw [v2_findMatch_blank s id hq]
      refine ⟨by simp, ?_, hsym, hnd⟩
      intro q hmem
      rcases List.mem_cons.mp hmem with h₂ | h₂
      · rw [h₂]
        exact hok
      · simp at h₂
    · rw [hrest] at hq
      rw [v2_findMatch_pop s id x hq hx]
      have hxq : alookup s.partnerships x = none := hqu x (by rw [hq]; exact List.mem_cons_self _ _)
      refine ⟨?_, ?_, ?_, ?_⟩
      · show ([] : List String).length ≤ 1
        simp
      · intro q hmem
        exact absurd (show q ∈ ([] : List String) from hmem) (List.not_mem_nil q)
      · show SymmMap (aset (aset s.partnerships id x) x id)
        exact symmMap_insert2 hsym hok hxq
      · show KeysNodup (aset (aset s.partnerships id x) x id)
        exact keysNodup_aset _ _ _ (keysNodup_aset _ _ _ hnd)

theorem v2_step_invSym (s : IndexV2.State) (e : IndexV2.Event)
    (h : IndexV2.InvSym s) (hok : IndexV2.OkFree s e) :
    IndexV2.InvSym (IndexV2.step s e) := by
  cases e with
  | connect id =>
    show IndexV2.InvSym (IndexV2.handleConnect s id)
    rcases hc : alookup s.users id with _ | u
    · have he : IndexV2.handleConnect s id
          = { s with users := aset s.users id ⟨false, none⟩ } := by
        simp [IndexV2.handleConnect, IndexV2.addUser, hc]
      rw [he]
      exact h
    · have he : IndexV2.handleConnect s id = s := by
        simp [IndexV2.handleConnect, IndexV2.addUser, hc]
      rw [he]
      exact h
  | findMatch id => exact v2_findMatch_invSym s id h hok
  | offer a c p =>
    show IndexV2.InvSym (IndexV2.handleOffer s a c p).1
    rw [v2_handleOffer_state]
    exact h
  | answer a c p =>
    show IndexV2.InvSym (IndexV2.handleAnswer s a c p).1
    rw [v2_handleAnswer_state]
    exact h
  | ice a c p =>
    show IndexV2.InvSym (IndexV2.handleIceCandidate s a c p).1
    rw [v2_handleIce_state]
    exact h
  | disconnect id =>
    show IndexV2.InvSym (IndexV2.handleDisconnect s id)
    exact v2_removeUser_invSym _ id (v2_break_invSym s id h)

theorem v2_init_invSym : IndexV2.InvSym IndexV2.init := by
  refine ⟨by simp [IndexV2.init], ?_, ?_, ?_⟩
  · intro q hq
    simp [IndexV2.init] at hq
  · intro a b hab
    simp [IndexV2.init, alookup] at hab
  · simp [IndexV2.init, KeysNodup, mapKeys]

theorem v2_reaches_invSym (s : IndexV2.State)
    (h : IndexV2.Reaches IndexV2.OkFree s) : IndexV2.InvSym s := by
  induction h with
  | init => exact v2_init_invSym
  | step hr hok ih => exact v2_step_invSym _ _ ih hok

/-! ### Claim C4 — partnership-map symmetry across the event handlers -/

theorem v2_steps_reaches (s : IndexV2.State)
    (h : IndexV2.Reaches (fun _ _ => True) s) (l : List IndexV2.Event) :
    IndexV2.Reaches (fun _ _ => True) (IndexV2.steps s l) := by
  induction l generalizing s with
  | nil => exact h
  | cons e rest ih => exact ih _ (h.step trivial)

/-- Claim C4 (amended): in every state reachable through the inbound
handlers in which `find-match` is only ever issued by a currently
unpartnered peer, the partnership map is symmetric and each peer id occurs
at most once as a key.  (Without that restriction symmetry fails — see the
counterexample, where a partnered peer re-requests a match.) -/
theorem claim4_symmetry_amended (s : IndexV2.State)
    (h : IndexV2.Reaches IndexV2.OkFree s) :
    SymmMap s.partnerships ∧ KeysNodup s.partnerships :=
  ⟨(v2_reaches_invSym s h).2.2.1, (v2_reaches_invSym s h).2.2.2⟩

/-- Counterexample to C4 as stated: the trace in which `"a"` asks for a
match again while already partnered with `"b"` reaches a state whose
partnership map sends `"b"` to `"a"` but `"a"` to `"c"` — symmetry is
broken. -/
theorem claim4_counterexample :
    IndexV2.Reaches (fun _ _ => True)
      (IndexV2.steps IndexV2.init
        [.connect "a", .connect "b", .connect "c", .findMatch "a",
         .findMatch "b", .findMatch "a", .findMatch "c"])
    ∧ alookup (IndexV2.steps IndexV2.init
        [.connect "a", .connect "b", .connect "c", .findMatch "a",
         .findMatch "b", .findMatch "a", .findMatch "c"]).partnerships "b" = some "a"
    ∧ alookup (IndexV2.steps IndexV2.init
        [.connect "a", .connect "b", .connect "c", .findMatch "a",
         .findMatch "b", .findMatch "a", .findMatch "c"]).partnerships "a" = some "c"
    ∧ alookup (IndexV2.steps IndexV2.init
        [.connect "a", .connect "b", .connect "c", .findMatch "a",
         .findMatch "b", .findMatch "a", .findMatch "c"]).partnerships "a"
        ≠ some "b" :=
  ⟨v2_steps_reaches IndexV2.init IndexV2.Reaches.init _,
    by decide, by decide, by decide⟩

/-- Witness for C4 (amended): a concrete four-event admissible trace. -/
theorem claim4_witness :
    SymmMap (IndexV2.step (IndexV2.step (IndexV2.step (IndexV2.step IndexV2.init
        (.connect "a")) (.connect "b")) (.findMatch "a")) (.findMatch "b")).partnerships
    ∧ KeysNodup (IndexV2.step (IndexV2.step (IndexV2.step (IndexV2.step IndexV2.init
        (.connect "a")) (.connect "b")) (.findMatch "a")) (.findMatch "b")).partnerships :=
  claim4_symmetry_amended _
    (IndexV2.Reaches.step (IndexV2.Reaches.step (IndexV2.Reaches.step
      (IndexV2.Reaches.step IndexV2.Reaches.init (by decide)) (by decide))
      (by decide)) (by decide))

/-! ### Claim C9 — even partnership-map size across the event handlers -/

theorem v2_break_invEven (s : IndexV2.State) (id : String) (h : IndexV2.InvEven s) :
    IndexV2.InvEven (IndexV2.breakPartnership s id).1 := by
  obtain ⟨hinv, hns, hev⟩ := h
  obtain ⟨hlen, hqu, hsym, hnd⟩ := hinv
  refine ⟨v2_break_invSym s id ⟨hlen, hqu, hsym, hnd⟩, ?_, ?_⟩
  · rcases v2_break_cases s id with ⟨h₁, _⟩ | ⟨partner, hp, h₁, _⟩
    · rw [h₁]
      exact hns
    · rw [h₁]
      have hidp : id ≠ partner := by
        intro hc
        exact hns id (by rw [hp, ← hc])
      intro x hx
      have hxpart : x ≠ partner := by
        intro hc
        rw [hc, alookup_adel_self _ _ (keysNodup_adel _ _ hnd)] at hx
        exact Option.noConfusion hx
      have hxid : x ≠ id := by
        intro hc
        rw [hc, alookup_adel_ne _ (fun h₂ : partner = id => hidp h₂.symm),
          alookup_adel_self _ _ hnd] at hx
        exact Option.noConfusion hx
      rw [alookup_adel_ne _ (fun h₂ : partner = x => hxpart h₂.symm),
        alookup_adel_ne _ (fun h₂ : id = x => hxid h₂.symm)] at hx
      exact hns x hx
  · rcases v2_break_cases s id with ⟨h₁, _⟩ | ⟨partner, hp, h₁, _⟩
    · rw [h₁]
      exact hev
    · rw [h₁]
      have hidp : id ≠ partner := by
        intro hc
        exact hns id (by rw [hp, ← hc])
      have hl1 := length_adel_of_some _ hp
      have hpp : alookup (adel s.partnerships id) partner = some id := by
        rw [alookup_adel_ne _ hidp]
        exact hsym id partner hp
      have hl2 := length_adel_of_some _ hpp
      obtain ⟨k, hk⟩ := hev
      exact ⟨k - 1, by omega⟩

theorem v2_findMatch_invEven (s : IndexV2.State) (id : String) (h : IndexV2.InvEven s)
    (hok : alookup s.partnerships id = none) (hoq : id ∉ s.waitingQueue) :
    IndexV2.InvEven (IndexV2.handleFindMatch s id) := by
  obtain ⟨hinv, hns, hev⟩ := h
  obtain ⟨hlen, hqu, hsym, hnd⟩ := hinv
  have hinv4 := v2_findMatch_invSym s id ⟨hlen, hqu, hsym, hnd⟩ hok
  rcases hq : s.waitingQueue with _ | ⟨x, rest⟩
  · rw [v2_findMatch_empty s id hq] at hinv4 ⊢
    exact ⟨hinv4, hns, hev⟩
  · have hrest : rest = [] := by
      rw [hq, List.length_cons] at hlen
      have h₂ := Nat.le_zero.mp (Nat.lt_succ_iff.mp hlen)
      exact List.eq_nil_of_length_eq_zero h₂
    by_cases hx : x = ""
    · rw [hx] at hq
      rw [hrest] at hq
      rw [v2_findMatch_blank s id hq] at hinv4 ⊢
      exact ⟨hinv4, hns, hev⟩
    · rw [hrest] at hq
      rw [v2_findMatch_pop s id x hq hx] at hinv4 ⊢
      have hidx : id ≠ x := by
        intro hc
        exact hoq (by rw [hq, hc]; exact List.mem_cons_self _ _)
      have hxq : alookup s.partnerships x = none :=
        hqu x (by rw [hq]; exact List.mem_cons_self _ _)
      refine ⟨hinv4, ?_, ?_⟩
      · show NoSelfMap (aset (aset s.partnerships id x) x id)
        intro z hz
        by_cases hzx : z = x
        · rw [hzx, alookup_aset_self] at hz
          injection hz with hz
          exact hidx hz
        · rw [alookup_aset_ne _ _ (fun h₂ : x = z => hzx h₂.symm)] at hz
          by_cases hzi : z = id
          · rw [hzi, alookup_aset_self] at hz
            injection hz with hz
            exact hidx hz.symm
          · rw [alookup_aset_ne _ _ (fun h₂ : id = z => hzi h₂.symm)] at hz
            exact hns z hz
      · show Even (aset (aset s.partnerships id x) x id).length
        have hfresh : alookup (aset s.partnerships id x) x = none := by
          rw [alookup_aset_ne _ _ hidx]
          exact hxq
        rw [length_aset_of_none _ _ hfresh, length_aset_of_none _ _ hok]
        obtain ⟨k, hk⟩ := hev
        exact ⟨k + 1, by omega⟩

theorem v2_invEven_qremove_users (s : IndexV2.State) (id : String)
    (h : IndexV2.InvEven s) :
    IndexV2.InvEven { s with users := adel s.users id,
                             waitingQueue := qremove s.waitingQueue id } :=
  ⟨v2_invSym_qremove_users s id h.1, h.2.1, h.2.2⟩

theorem v2_removeUser_invEven (s : IndexV2.State) (id : String)
    (h : IndexV2.InvEven s) : IndexV2.InvEven (IndexV2.removeUser s id) := by
  rcases hu : alookup s.users id with _ | u
  · have he : IndexV2.removeUser s id
        = { s with users := adel s.users id,
                   waitingQueue := qremove s.waitingQueue id } := by
      simp only [IndexV2.removeUser, hu]
    rw [he]
    exact v2_invEven_qremove_users s id h
  · rcases ht : strTruthy u.room with _ | _
    · have he : IndexV2.removeUser s id
          = { s with users := adel s.users id,
                     waitingQueue := qremove s.waitingQueue id } := by
        simp [IndexV2.removeUser, hu, ht]
      rw [he]
      exact v2_invEven_qremove_users s id h
    · have he : IndexV2.removeUser s id
          = { (IndexV2.breakPartnership s id).1 with
              users := adel (IndexV2.breakPartnership s id).1.users id,
              waitingQueue := qremove (IndexV2.breakPartnership s id).1.waitingQueue id } := by
        simp [IndexV2.removeUser, hu, ht]
      rw [he]
      exact v2_invEven_qremove_users _ id (v2_break_invEven s id h)

theorem v2_step_invEven (s : IndexV2.State) (e : IndexV2.Event)
    (h : IndexV2.InvEven s) (hok : IndexV2.OkFresh s e) :
    IndexV2.InvEven (IndexV2.step s e) := by
  cases e with
  | connect id =>
    show IndexV2.InvEven (IndexV2.handleConnect s id)
    rcases hc : alookup s.users id with _ | u
    · have he : IndexV2.handleConnect s id
          = { s with users := aset s.users id ⟨false, none⟩ } := by
        simp [IndexV2.handleConnect, IndexV2.addUser, hc]
      rw [he]
      exact h
    · have he : IndexV2.handleConnect s id = s := by
        simp [IndexV2.handleConnect, IndexV2.addUser, hc]
      rw [he]
      exact h
  | findMatch id => exact v2_findMatch_invEven s id h hok.1 hok.2
  | offer a c p =>
    show IndexV2.InvEven (IndexV2.handleOffer s a c p).1
    rw [v2_handleOffer_state]
    exact h
  | answer a c p =>
    show IndexV2.InvEven (IndexV2.handleAnswer s a c p).1
    rw [v2_handleAnswer_state]
    exact h
  | ice a c p =>
    show IndexV2.InvEven (IndexV2.handleIceCandidate s a c p).1
    rw [v2_handleIce_state]
    exact h
  | disconnect id =>
    show IndexV2.InvEven (IndexV2.handleDisconnect s id)
    exact v2_removeUser_invEven _ id (v2_break_invEven s id h)

theorem v2_init_invEven : IndexV2.InvEven IndexV2.init :=
  ⟨v2_init_invSym, fun a hc => by simp [IndexV2.init, alookup] at hc, ⟨0, rfl⟩⟩

theorem v2_reaches_invEven (s : IndexV2.State)
    (h : IndexV2.Reaches IndexV2.OkFresh s) : IndexV2.InvEven s := by
  induction h with
  | init => exact v2_init_invEven
  | step hr hok ih => exact v2_step_invEven _ _ ih hok

/-- Claim C9 (amended): in every state reachable through the inbound
handlers in which `find-match` is only ever issued by a peer that is
unpartnered and not already waiting, the partnership map holds an even
number of entries, so `getConnectionStats().activePartnerships =
partnerships.size / 2` is a whole number.  (Without that restriction the
map size can be odd — see the counterexample, where a waiting peer
re-requests a match and is paired with itself.) -/
theorem claim9_even_partnerships_amended (s : IndexV2.State)
    (h : IndexV2.Reaches IndexV2.OkFresh s) :
    Even s.partnerships.length
    ∧ 2 * (IndexV2.getConnectionStats s).activePartnerships
        = s.partnerships.length := by
  have he := (v2_reaches_invEven s h).2.2
  refine ⟨he, ?_⟩
  obtain ⟨k, hk⟩ := he
  show 2 * (s.partnerships.length / 2) = s.partnerships.length
  omega

/-- Counterexample to C9 as stated: if the already-waiting `"a"` issues
`find-match` again it is popped from the queue and partnered with itself,
leaving a partnership map with exactly one entry — an odd size, so
`partnerships.size / 2` is not a whole number. -/
theorem claim9_counterexample :
    IndexV2.Reaches (fun _ _ => True)
      (IndexV2.steps IndexV2.init [.connect "a", .findMatch "a", .findMatch "a"])
    ∧ (IndexV2.steps IndexV2.init
        [.connect "a", .findMatch "a", .findMatch "a"]).partnerships = [("a", "a")]
    ∧ ¬ Even (IndexV2.steps IndexV2.init
        [.connect "a", .findMatch "a", .findMatch "a"]).partnerships.length :=
  ⟨v2_steps_reaches IndexV2.init IndexV2.Reaches.init _, by decide, by decide⟩

/-- Witness for C9 (amended): the same concrete admissible trace as for
symmetry, with the stats equation evaluated. -/
theorem claim9_witness :
    Even (IndexV2.step (IndexV2.step (IndexV2.step (IndexV2.step IndexV2.init
        (.connect "a")) (.connect "b")) (.findMatch "a"))
        (.findMatch "b")).partnerships.length
    ∧ 2 * (IndexV2.getConnectionStats (IndexV2.step (IndexV2.step (IndexV2.step
        (IndexV2.step IndexV2.init (.connect "a")) (.connect "b")) (.findMatch "a"))
        (.findMatch "b"))).activePartnerships
      = (IndexV2.step (IndexV2.step (IndexV2.step (IndexV2.step IndexV2.init
        (.connect "a")) (.connect "b")) (.findMatch "a"))
        (.findMatch "b")).partnerships.length :=
  claim9_even_partnerships_amended _
    (IndexV2.Reaches.step (IndexV2.Reaches.step (IndexV2.Reaches.step
      (IndexV2.Reaches.step IndexV2.Reaches.init (by decide)) (by decide))
      (by decide)) (by decide))
